import Mathlib

/-!
# Scheduled jobs: retry, batching, call timing and telemetry

A shallow embedding of the two timer-triggered jobs of the repository

* `mmo-fes-functionapp/index.js` (the landing-and-reporting job),
* `mmo-fes-reconciliationapp/index.js` (the business-continuity reconciliation job),

and of the two modules they share, `src/appInsights.js` and `src/axiosInterceptors.js`.

A settled promise (or a call that returns / throws) is a value of `Except Thrown α`:
`Except.ok v` is a promise resolved with `v` (a normal return), `Except.error e` a promise
rejected with `e` (a `throw`).  Side effects are recorded, in order, in the `trace` of a
`World`; everything outside the repository (the HTTP adapter, the clock, the telemetry
sink, the document store, the file system) is an oracle in `Env`.

JavaScript numbers are embedded as exact numbers: counts and delays as `Int`, the readings
of `performance.now()` as rationals (`ℚ`).  The rounding of double arithmetic is not part of
the embedding.
-/

namespace FesJobs

/-! ## Values -/

deriving instance DecidableEq for Except

/-- The `meta` object that the request interceptor hangs on a request config; `ts` is a
reading of `performance.now()`, in milliseconds with a fractional part. -/
structure Meta where
  ts : Option ℚ := none
deriving DecidableEq, Repr

/-- The part of an axios request config that the interceptors touch. -/
structure RequestConfig where
  meta : Option Meta := none
deriving DecidableEq, Repr

/-- What the HTTP adapter settles a request with: the fields of a response (when the
request is fulfilled) or of an error object (when it is rejected) that the jobs read.
`text` is what `String(object)` yields. -/
structure Reply where
  status : Option Int
  data : String := ""
  text : String := "[object Object]"
deriving DecidableEq, Repr

/-- A response or error object as seen by the jobs after axios attached the request
config to it.  `duration` is absent until a response interceptor writes it; `none` also
stands for a `NaN` duration. -/
structure HttpObj where
  status : Option Int
  data : String := ""
  text : String := "[object Object]"
  config : Option RequestConfig := none
  duration : Option Int := none
deriving DecidableEq, Repr

/-- Values that the embedded code throws or rejects with. -/
inductive Thrown where
  /-- a thrown string, such as the `'failed'` of `retry` -/
  | str (s : String)
  /-- the error object axios rejected with -/
  | http (o : HttpObj)
  /-- an `Error` object made by `new Error(message)` -/
  | error (message : String)
  /-- a `TypeError` raised by a property access on `undefined` or `null` -/
  | typeError (message : String)
  /-- a `RangeError` raised by the array constructor -/
  | rangeError (message : String)
  /-- an exception raised inside the telemetry sink -/
  | sinkFailure
deriving DecidableEq, Repr

/-- The result of `String(e)` (also of `'' + e`) for a thrown value. -/
def Thrown.toStr : Thrown → String
  | .str s => s
  | .http o => o.text
  | .error m => "Error: " ++ m
  | .typeError m => "TypeError: " ++ m
  | .rangeError m => "RangeError: " ++ m
  | .sinkFailure => "Error: telemetry sink"

/-- A work item of the reconciliation job: `{certNumber, status, timestamp}`. -/
structure Doc where
  certNumber : String
  status : String
  timestamp : String
deriving DecidableEq, Repr

/-- An outbound HTTP request: `axios.post(url, null, ...)` or `axios.put(url, data, ...)`. -/
structure Request where
  method : String
  url : String
  data : Option (List Doc) := none
deriving DecidableEq, Repr

/-- The record `trackEvent` hands to the telemetry sink. -/
structure EventData where
  name : String
  properties : Option (List (String × String))
  tagOverrides : List (String × Option String)
deriving DecidableEq, Repr

/-- The record `trackRequest` hands to the telemetry sink. -/
structure RequestData where
  name : String
  url : String
  duration : Option Int
  resultCode : Option Int
  success : Bool
  tagOverrides : List (String × Option String)
deriving DecidableEq, Repr

/-- The two properties `trackRequest` reads off its third argument; `none` is
`undefined`. -/
structure Outcome where
  duration : Option Int
  status : Option Int
deriving DecidableEq, Repr

/-- Reading `.duration` and `.status` off a response or error object. -/
def HttpObj.outcome (o : HttpObj) : Outcome := { duration := o.duration, status := o.status }

/-- Reading `.duration` and `.status` off a thrown value: only the objects produced by
axios carry them. -/
def Thrown.outcome : Thrown → Outcome
  | .http o => o.outcome
  | _ => { duration := none, status := none }

/-! ## Effects -/

/-- The observable actions of a run, in the order in which they happen. -/
inductive Event where
  /-- an invocation of a caller-supplied operation (a test double), with its argument -/
  | call (arg : Int)
  /-- a call `context.log(tag, ...)`; the timestamp and error arguments are not recorded -/
  | log (tag : String)
  /-- a call `context.log.error(tag, ...)` -/
  | logError (tag : String)
  /-- the log line of `appInsights.trackEvent`, which embeds `JSON.stringify(data)` -/
  | logEventTracked (data : EventData)
  /-- the log line of `appInsights.trackRequest`, which embeds `JSON.stringify(data)` -/
  | logRequestTracked (data : RequestData)
  /-- a call `setTimeout(resolve, ms)` -/
  | setTimeout (ms : Int)
  /-- an HTTP request handed to axios -/
  | request (r : Request)
  /-- the call `appInsights.setup(instrumentationKey)` of the telemetry library -/
  | sinkSetup (key : String)
  /-- the sink call `appInsightsClient.trackEvent(data)` -/
  | sinkTrackEvent (data : EventData)
  /-- the sink call `appInsightsClient.trackRequest(data)` -/
  | sinkTrackRequest (data : RequestData)
  /-- the assignment `context.res = { status, body }` -/
  | setRes (status : Int) (body : String)
  /-- the call `client.close()` on the document store -/
  | dbClose
deriving DecidableEq, Repr

/-- The module-level variables of `src/appInsights.js`. -/
structure AppInsightsState where
  /-- the variable `appInsightsClient`: `false` while it is `undefined` -/
  appInsightsClient : Bool := false
  /-- the variable `operationIdOverride`, initially `{}` -/
  operationIdOverride : List (String × Option String) := []
  /-- the variable `logFn`: `false` while it is the initial `(str) => str`, `true` once it is
  `context.log` -/
  logFn : Bool := false
deriving DecidableEq, Repr

/-- The mutable state a run can touch. -/
structure World where
  /-- every effect so far, oldest first -/
  trace : List Event := []
  /-- the state of the telemetry module -/
  insights : AppInsightsState := {}
  /-- how many (request, response) interceptor pairs `axiosInterceptors.init` has
  installed on the shared axios instance -/
  interceptors : Nat := 0
  /-- how many times `performance.now()` has been read -/
  clockReads : Nat := 0
deriving DecidableEq, Repr

/-- Everything the jobs talk to but do not own. -/
structure Env where
  /-- the outcome of the `n`-th HTTP request (counting from 0) handed to the adapter:
  `ok` is a response, `error` the error the adapter rejects with -/
  adapter : Nat → Request → Except Reply Reply
  /-- the `k`-th reading of `performance.now()` -/
  perfNow : Nat → ℚ := fun _ => 0
  /-- whether the sink's `trackEvent` throws on this record -/
  sinkEventThrows : EventData → Bool := fun _ => false
  /-- whether the sink's `trackRequest` throws on this record -/
  sinkRequestThrows : RequestData → Bool := fun _ => false
  /-- whether `fs.readFileSync` finds the CA bundle -/
  caBundleReadable : Bool := true
  /-- the outcome of `client.connect()` on the document store -/
  connect : Except Thrown Unit := .ok ()
  /-- the outcome of querying the document store and mapping the records to work items -/
  documents : Except Thrown (List Doc) := .ok []

/-- A computation with effects: it returns or throws, and leaves a new world. -/
abbrev Eff (α : Type) := World → Except Thrown α × World

/-- What the jobs call as `axios.post` / `axios.put`: a function from a request to a
promise of a response.  In production it is `Axios.request`; the tests replace it by a
double. -/
abbrev HttpClient := Request → World → Except Thrown HttpObj × World

/-- Append an event to the trace. -/
def World.emit (w : World) (e : Event) : World := { w with trace := w.trace ++ [e] }

/-- The delays passed to `setTimeout`, in order. -/
def timeouts : List Event → List Int
  | [] => []
  | .setTimeout ms :: es => ms :: timeouts es
  | _ :: es => timeouts es

/-- The arguments of the invocations of the caller-supplied operation, in order. -/
def calls : List Event → List Int
  | [] => []
  | .call a :: es => a :: calls es
  | _ :: es => calls es

/-- The HTTP requests handed to axios, in order. -/
def requests : List Event → List Request
  | [] => []
  | .request r :: es => r :: requests es
  | _ :: es => requests es

/-- The sink calls (`trackEvent` and `trackRequest` of the telemetry client), in order. -/
def sinkCalls : List Event → List Event
  | [] => []
  | .sinkTrackEvent d :: es => .sinkTrackEvent d :: sinkCalls es
  | .sinkTrackRequest d :: es => .sinkTrackRequest d :: sinkCalls es
  | _ :: es => sinkCalls es

/-- The part of the Azure Functions `context` that the telemetry module reads. -/
structure Context where
  operationId : Option String := none
deriving DecidableEq, Repr

/-! ## `src/appInsights.js` -/

namespace AppInsights

/-- A call of the module variable `logFn`: the initial `(str) => str` leaves no trace,
`context.log` writes a line. -/
def logFn (w : World) (line : Event) : World :=
  if w.insights.logFn then w.emit line else w

/-- The function `init(instrumentationKey, context)`.  The library calls
`appInsights.setup(key)` and `appInsights.defaultClient` are taken to succeed and to yield
a client. -/
def init (instrumentationKey : String) (context : Context) (w : World) : World :=
  let w1 : World := { w with insights :=
    { w.insights with operationIdOverride := [("ai.operation.id", context.operationId)] } }
  let w2 := w1.emit (.sinkSetup instrumentationKey)
  let w3 : World := { w2 with insights :=
    { w2.insights with appInsightsClient := true, logFn := true } }
  logFn w3 (.log "[SCHEDULED-JOBS][LANDING-AND-REPORTING][APP-INSIGHTS][INITIALISED]")

/-- The function `trackEvent(name, properties)`. -/
def trackEvent (env : Env) (name : String) (properties : Option (List (String × String)))
    (w : World) : Except Thrown Unit × World :=
  if w.insights.appInsightsClient then
    let data : EventData :=
      { name := name, properties := properties, tagOverrides := w.insights.operationIdOverride }
    let w1 := w.emit (.sinkTrackEvent data)
    if env.sinkEventThrows data then (.error .sinkFailure, w1)
    else (.ok (), logFn w1 (.logEventTracked data))
  else (.ok (), w)

/-- The function `trackRequest(name, url, response)`; `response` is any object, seen
through its `duration` and `status` properties. -/
def trackRequest (env : Env) (name url : String) (response : Outcome) (w : World) :
    Except Thrown Unit × World :=
  if w.insights.appInsightsClient then
    let data : RequestData :=
      { name := name, url := url, duration := response.duration,
        resultCode := response.status, success := decide (response.status = some 200),
        tagOverrides := w.insights.operationIdOverride }
    let w1 := w.emit (.sinkTrackRequest data)
    if env.sinkRequestThrows data then (.error .sinkFailure, w1)
    else (.ok (), logFn w1 (.logRequestTracked data))
  else (.ok (), w)

end AppInsights

/-! ## `src/axiosInterceptors.js` -/

namespace AxiosInterceptors

/-- The first decimal digit of a natural number. -/
def leadingDigit (n : Nat) : Nat :=
  match Nat.toDigits 10 n with
  | [] => 0
  | c :: _ => c.toNat - 48

/-- The library call `parseInt(x)` for a number `x ≥ 0`.  `parseInt` converts its argument to
a string and reads the digits up to the first character that is not one.  A number is
written in decimal notation when it is `0` or lies in `[10^-6, 10^21)`, and `parseInt` then
yields its integer part; a smaller or larger number is written in exponent notation
(`5e-7`, `1e+21`), of which `parseInt` reads only the leading digit. -/
def parseIntOfNonneg (x : ℚ) : Nat :=
  if x = 0 then 0
  else if x < 1 / 1000000 then
    (Rat.floor (x * 10 ^ (Nat.toDigits 10 ((Rat.ceil (1 / x)).toNat - 1)).length)).toNat
  else if x < 10 ^ 21 then (Rat.floor x).toNat
  else leadingDigit (Rat.floor x).toNat

/-- The library call `parseInt(x)` for a number: the sign is kept and the digits are those of
the absolute value. -/
def parseInt (x : ℚ) : Int :=
  if x < 0 then -((parseIntOfNonneg (-x) : Nat) : Int) else ((parseIntOfNonneg x : Nat) : Int)

/-- The function `requestInterceptor(config)`, with `now` the value of
`performance.now()`: `config.meta = config.meta || {}; config.meta.ts = now`. -/
def requestInterceptor (now : ℚ) (config : RequestConfig) : RequestConfig :=
  { config with meta := some { (config.meta.getD {}) with ts := some now } }

/-- The function `responseInterceptor(response)`, with `now` the value of
`performance.now()`: `response.duration = parseInt(now - response.config.meta.ts)`, then
`return response`.  Reading `meta` off a missing `config`, or `ts` off a missing `meta`,
throws a `TypeError`; a missing `ts` gives a `NaN` duration. -/
def responseInterceptor (now : ℚ) (response : HttpObj) : Except Thrown HttpObj :=
  match response.config with
  | none => .error (.typeError "Cannot read properties of undefined (reading meta)")
  | some config =>
    match config.meta with
    | none => .error (.typeError "Cannot read properties of undefined (reading ts)")
    | some m => .ok { response with duration := m.ts.map (fun ts => parseInt (now - ts)) }

/-- The same function `responseInterceptor` applied to a rejection reason, as happens
when it is registered as the `rejected` handler: only the error objects made by axios
carry a `config`. -/
def responseInterceptorOnError (now : ℚ) (reason : Thrown) : Except Thrown HttpObj :=
  match reason with
  | .http o => responseInterceptor now o
  | _ => .error (.typeError "Cannot read properties of undefined (reading meta)")

/-- The function `init(axios)`: `axios.interceptors.request.use(requestInterceptor)` and
`axios.interceptors.response.use(responseInterceptor, responseInterceptor)` add one more
pair of handlers to the shared axios instance. -/
def init (w : World) : World := { w with interceptors := w.interceptors + 1 }

end AxiosInterceptors

/-! ## The axios request pipeline (library behaviour) -/

namespace Axios

/-- One reading of `performance.now()`. -/
def readClock (env : Env) (w : World) : ℚ × World :=
  (env.perfNow w.clockReads, { w with clockReads := w.clockReads + 1 })

/-- The request handlers run one after the other on the config. -/
def runRequestInterceptors (env : Env) : Nat → RequestConfig → World → RequestConfig × World
  | 0, config, w => (config, w)
  | n + 1, config, w =>
    let (now, w1) := readClock env w
    runRequestInterceptors env n (AxiosInterceptors.requestInterceptor now config) w1

/-- The response handlers are chained with `promise.then(fulfilled, rejected)`: a
fulfilled promise goes through `fulfilled`, a rejected one through `rejected`, and what
the handler returns (or throws) settles the next promise of the chain. -/
def runResponseInterceptors (env : Env) :
    Nat → Except Thrown HttpObj → World → Except Thrown HttpObj × World
  | 0, settled, w => (settled, w)
  | n + 1, settled, w =>
    let (now, w1) := readClock env w
    let next := match settled with
      | .ok response => AxiosInterceptors.responseInterceptor now response
      | .error reason => AxiosInterceptors.responseInterceptorOnError now reason
    runResponseInterceptors env n next w1

/-- A request made with `axios.post` / `axios.put`: request handlers, the adapter (which
attaches the request config to the response or to the error), response handlers. -/
def request (env : Env) (req : Request) (w : World) : Except Thrown HttpObj × World :=
  let index := (requests w.trace).length
  let w0 := w.emit (.request req)
  let (config, w1) := runRequestInterceptors env w0.interceptors {} w0
  let settled : Except Thrown HttpObj :=
    match env.adapter index req with
    | .ok r => .ok { status := r.status, data := r.data, text := r.text, config := some config }
    | .error r =>
      .error (.http { status := r.status, data := r.data, text := r.text, config := some config })
  runResponseInterceptors env w1.interceptors settled w1

end Axios

/-! ## `mmo-fes-functionapp/index.js`: the landing job -/

namespace Landing

/-- The function `wait(time)`: `new Promise(resolve => setTimeout(resolve, time || 0))`. -/
def wait (time : Int) (w : World) : World :=
  w.emit (.setTimeout (if time ≠ 0 then time else 0))

/-- The function `retry(fn, retries, delayFn)`:
`fn(retries).catch(e => (retries > 0) ? wait(delayFn(retries)).then(() => retry(fn, retries - 1, delayFn)) : Promise.reject('failed'))`. -/
def retry {α : Type} (fn : Int → Eff α) (retries : Int) (delayFn : Int → Int) (w : World) :
    Except Thrown α × World :=
  match fn retries w with
  | (.ok v, w1) => (.ok v, w1)
  | (.error _, w1) =>
    if 0 < retries then
      retry fn (retries - 1) delayFn (wait (delayFn retries) w1)
    else
      (.error (.str "failed"), w1)
termination_by retries.toNat
decreasing_by omega

/-- The function `calcDelay(delay, totalRetries)(retriesRemaining)`:
`(totalRetries - retriesRemaining) * delay`. -/
def calcDelay (delay totalRetries : Int) (retriesRemaining : Int) : Int :=
  (totalRetries - retriesRemaining) * delay

/-- The module-level `config` of the landing job. -/
structure Config where
  url : String := "http://localhost:9000/v1/jobs/landings"
  timeoutMS : Int := 600000
  retries : Int := 4
  retryDelay : Int := 300000
  instrumentationKey : Option String := none
deriving DecidableEq, Repr

/-- The `overrideConfig` argument: the properties it defines replace those of `config`. -/
structure Override where
  url : Option String := none
  timeoutMS : Option Int := none
  retries : Option Int := none
  retryDelay : Option Int := none
  instrumentationKey : Option (Option String) := none
deriving DecidableEq, Repr

/-- The object spread `{...config, ...overrideConfig}`. -/
def merge (config : Config) (o : Override) : Config :=
  { url := o.url.getD config.url
    timeoutMS := o.timeoutMS.getD config.timeoutMS
    retries := o.retries.getD config.retries
    retryDelay := o.retryDelay.getD config.retryDelay
    instrumentationKey := o.instrumentationKey.getD config.instrumentationKey }

/-- The function `httpReq(log, totalRetries)(retriesRemaining)`:
log the attempt, `axios.post(...)`, `.then(res => appInsights.trackRequest(apiName, apiUrl, res))`,
`.catch(e => { log(...ERROR...); appInsights.trackRequest(apiName, apiUrl, e); return Promise.reject(e) })`. -/
def httpReq (env : Env) (axios : HttpClient) (config : Config) (totalRetries : Int)
    (retriesRemaining : Int) (w : World) : Except Thrown Unit × World :=
  let attempt := (totalRetries - retriesRemaining) + 1
  let apiName := "POST /v1/jobs/landings"
  let apiUrl := config.url
  let onRejected : Thrown → World → Except Thrown Unit × World := fun e w =>
    let w1 := w.emit (.log ("[SCHEDULED-JOBS][LANDING-AND-REPORTING][ERROR][ATTEMPT-"
      ++ toString attempt ++ "]"))
    match AppInsights.trackRequest env apiName apiUrl e.outcome w1 with
    | (.ok _, w2) => (.error e, w2)
    | (.error thrown, w2) => (.error thrown, w2)
  let w1 := w.emit (.log ("[SCHEDULED-JOBS][LANDING-AND-REPORTING][MAKING-HTTP-CALL][ATTEMPT-"
    ++ toString attempt ++ "]"))
  match axios { method := "POST", url := config.url } w1 with
  | (.ok res, w2) =>
    match AppInsights.trackRequest env apiName apiUrl res.outcome w2 with
    | (.ok _, w3) => (.ok (), w3)
    | (.error thrown, w3) => onRejected thrown w3
  | (.error e, w2) => onRejected e w2

/-- Whether `config.instrumentationKey` is truthy: neither `null` nor the empty string. -/
def keyOf (config : Config) : Option String :=
  match config.instrumentationKey with
  | some key => if key = "" then none else some key
  | none => none

/-- The exported function `func(context, myTimer, overrideConfig)` of the landing job;
`config` is the module-level configuration before the call and `isPastDue` is
`myTimer.IsPastDue`. -/
def func (env : Env) (axios : HttpClient) (config : Config) (context : Context)
    (isPastDue : Bool) (overrideConfig : Override) (w : World) : Except Thrown Unit × World :=
  let w := w.emit (.log "[SCHEDULED-JOBS][LANDING-AND-REPORTING][STARTED]")
  let config := merge config overrideConfig
  let w := if isPastDue then
      w.emit (.log "[SCHEDULED-JOBS][LANDING-AND-REPORTING][RUNNING-LATE]") else w
  let w := match keyOf config with
    | some key => AppInsights.init key context w
    | none => w
  let w := if env.caBundleReadable then w else
      w.emit (.log ("[SCHEDULED-JOBS][LANDING-AND-REPORTING][ERROR]"
        ++ "[Make sure that the CA pem bundle file named cabundle.pem]"))
  let w := w.emit (.log ("[SCHEDULED-JOBS][LANDING-AND-REPORTING][CONFIG]"
    ++ "[url: " ++ config.url ++ "][timeoutMs: " ++ toString config.timeoutMS ++ "]"
    ++ "[retries: " ++ toString config.retries ++ "][retryDelay: "
    ++ toString config.retryDelay ++ "]"
    ++ "[instrumentationKey: " ++ config.instrumentationKey.getD "null" ++ "]"))
  let w := AxiosInterceptors.init w
  let onRejected : World → Except Thrown Unit × World := fun w =>
    match AppInsights.trackEvent env "[SCHEDULED-JOBS][LANDING-AND-REPORTING][FAILED]" none w with
    | (.ok _, w1) =>
      (.ok (), w1.emit (.log "[SCHEDULED-JOBS][LANDING-AND-REPORTING][ERROR][TERMINATING-RETRIES]"))
    | (.error thrown, w1) => (.error thrown, w1)
  match retry (httpReq env axios config config.retries) config.retries
      (calcDelay config.retryDelay config.retries) w with
  | (.ok _, w1) =>
    match AppInsights.trackEvent env "[SCHEDULED-JOBS][LANDING-AND-REPORTING][SUCCEEDED]" none
        w1 with
    | (.ok _, w2) => (.ok (), w2.emit (.log "[SCHEDULED-JOBS][LANDING-AND-REPORTING][SUCCESS]"))
    | (.error _, w2) => onRejected w2
  | (.error _, w1) => onRejected w1

end Landing

/-- A test double for the operation given to `retry`: its `i`-th invocation (counting
from 0) settles as `script i arg`, and the invocation is recorded in the trace. -/
def scripted {α : Type} (script : Nat → Int → Except Thrown α) (arg : Int) (w : World) :
    Except Thrown α × World :=
  (script (calls w.trace).length arg, w.emit (.call arg))

/-! ## `mmo-fes-reconciliationapp/index.js`: batching -/

/-- The value of `Math.ceil(array.length / batchSize)`: an integer, `Infinity` or `NaN`. -/
inductive JsLength where
  | int (n : Int)
  | infinity
  | nan
deriving DecidableEq, Repr

/-- The function `Math.ceil(len / batchSize)` for an array length and an integer
`batchSize`.  A division by zero gives `Infinity`, or `NaN` for `0 / 0`; otherwise the
least integer not below the quotient, which is `-floor(-len / batchSize)`. -/
def mathCeilDiv (len : Nat) (batchSize : Int) : JsLength :=
  if batchSize = 0 then
    if len = 0 then .nan else .infinity
  else
    .int (-(Int.fdiv (-(len : Int)) batchSize))

/-- The library call `Array.from({ length }, mapFn)`.  `ToLength` turns `NaN` and
negative numbers into `0` and `Infinity` into `2^53 - 1`, a length the array constructor
rejects with a `RangeError`; otherwise `mapFn` is applied to the indices `0 .. length - 1`.
(A finite length above `2^32 - 1` would be rejected too; the count computed from a
JavaScript array never exceeds the length of that array.) -/
def arrayFrom {β : Type} (length : JsLength) (mapFn : Nat → β) : Except Thrown (List β) :=
  match length with
  | .nan => .ok []
  | .infinity => .error (.rangeError "Invalid array length")
  | .int n => if n ≤ 0 then .ok [] else .ok ((List.range n.toNat).map mapFn)

/-- The library call `array.slice(start, end)` for integer arguments: a negative index
counts from the end of the array, and both indices are clamped to `[0, length]`. -/
def slice {α : Type} (array : List α) (start stop : Int) : List α :=
  let len : Int := array.length
  let k : Int := if start < 0 then max (len + start) 0 else min start len
  let final : Int := if stop < 0 then max (len + stop) 0 else min stop len
  (array.drop k.toNat).take (final - k).toNat

namespace Reconciliation

/-- The function `batchArray(array, batchSize)`:
`Array.from({ length: Math.ceil(array.length / batchSize) },
  (_, index) => array.slice(index * batchSize, (index + 1) * batchSize))`. -/
def batchArray {α : Type} (array : List α) (batchSize : Int) : Except Thrown (List (List α)) :=
  arrayFrom (mathCeilDiv array.length batchSize)
    (fun index => slice array ((index : Int) * batchSize) (((index : Int) + 1) * batchSize))

/-- The module-level `config` of the reconciliation job. -/
structure Config where
  dbName : String := "local_mmo_exportcert"
  batchSize : Int := 1000
  startDate : String := "2025-01-09"
  endDate : String := "2025-02-13"
  businessContinuityUrl : String := "https://eutd-mmo-bc.dev.cdp-int.defra.cloud"
  businessContinuityKey : String := "00000000-0000-1000-A000-000000000000"
  retries : Int := 4
  retryDelay : Int := 1000
  instrumentationKey : Option String := none
  apiName : String := "/api/certificates"
deriving DecidableEq, Repr

/-- The `overrideConfig` argument: the properties it defines replace those of `config`. -/
structure Override where
  dbName : Option String := none
  batchSize : Option Int := none
  startDate : Option String := none
  endDate : Option String := none
  businessContinuityUrl : Option String := none
  businessContinuityKey : Option String := none
  retries : Option Int := none
  retryDelay : Option Int := none
  instrumentationKey : Option (Option String) := none
  apiName : Option String := none
deriving DecidableEq, Repr

/-- The object spread `{...config, ...overrideConfig}`. -/
def merge (config : Config) (o : Override) : Config :=
  { dbName := o.dbName.getD config.dbName
    batchSize := o.batchSize.getD config.batchSize
    startDate := o.startDate.getD config.startDate
    endDate := o.endDate.getD config.endDate
    businessContinuityUrl := o.businessContinuityUrl.getD config.businessContinuityUrl
    businessContinuityKey := o.businessContinuityKey.getD config.businessContinuityKey
    retries := o.retries.getD config.retries
    retryDelay := o.retryDelay.getD config.retryDelay
    instrumentationKey := o.instrumentationKey.getD config.instrumentationKey
    apiName := o.apiName.getD config.apiName }

/-- The `while (retryCount < maxRetries)` loop of `makeApiCallWithRetry`, entered with the
current value of `retryCount`.  The result `none` is the `undefined` returned when the loop
ends without an attempt. -/
def makeApiCallLoop (axios : HttpClient) (url apiName : String) (data : List Doc)
    (maxRetries retryDelay : Int) (retryCount : Nat) (w : World) :
    Except Thrown (Option HttpObj) × World :=
  if _h : (retryCount : Int) < maxRetries then
    let w1 := w.emit (.log ("[SCHEDULED-JOBS][BC-RECONCILIATION][MAKE-API-CALL][" ++ url
      ++ apiName ++ "][RETRY: " ++ toString retryCount ++ "]"))
    let onCatch : Thrown → World → Except Thrown (Option HttpObj) × World := fun error w =>
      if (retryCount : Int) + 1 ≥ maxRetries then
        (.error (.error ("Max retries exceeded" ++ error.toStr)), w)
      else
        makeApiCallLoop axios url apiName data maxRetries retryDelay (retryCount + 1)
          (w.emit (.setTimeout (2 ^ (retryCount + 1) * retryDelay)))
    match axios { method := "PUT", url := url ++ apiName, data := some data } w1 with
    | (.ok response, w2) =>
      if response.status ≠ some 200 then
        onCatch (.error response.text)
          (w2.emit (.logError ("[SCHEDULED-JOBS][BC-RECONCILIATION][MAKE-API-CALL]["
            ++ response.text ++ "]")))
      else
        (.ok (some response), w2)
    | (.error error, w2) => onCatch error w2
  else
    (.ok none, w)
termination_by (maxRetries - retryCount).toNat
decreasing_by all_goals (simp_wf; omega)

/-- The function `makeApiCallWithRetry(url, apiName, key, data, maxRetries, retryDelay, context)`;
the key only goes into the request headers. -/
def makeApiCallWithRetry (axios : HttpClient) (url apiName : String) (data : List Doc)
    (maxRetries retryDelay : Int) (w : World) : Except Thrown (Option HttpObj) × World :=
  makeApiCallLoop axios url apiName data maxRetries retryDelay 0 w

/-- The loop `for (const batch of batches)` of `func`: send the batch, log the response
data (a `TypeError` when the response is `undefined`), track the request. -/
def sendBatches (env : Env) (axios : HttpClient) (config : Config) :
    List (List Doc) → World → Except Thrown Unit × World
  | [], w => (.ok (), w)
  | batch :: rest, w =>
    match makeApiCallWithRetry axios config.businessContinuityUrl config.apiName batch
        config.retries config.retryDelay w with
    | (.error e, w1) => (.error e, w1)
    | (.ok none, w1) =>
      (.error (.typeError "Cannot read properties of undefined (reading data)"), w1)
    | (.ok (some response), w1) =>
      let w2 := w1.emit (.log "Batch Data sent to BC")
      match AppInsights.trackRequest env ("PUT " ++ config.apiName)
          config.businessContinuityUrl response.outcome w2 with
      | (.error e, w3) => (.error e, w3)
      | (.ok _, w3) => sendBatches env axios config rest w3

/-- The property `error.message` of a caught value, as text. -/
def message : Thrown → String
  | .str _ => "undefined"
  | .http o => o.text
  | .error m => m
  | .typeError m => m
  | .rangeError m => m
  | .sinkFailure => "telemetry sink"

/-- Log a line and emit the telemetry event of the same name. -/
def logAndTrack (env : Env) (tag : String) (w : World) : Except Thrown Unit × World :=
  AppInsights.trackEvent env tag none (w.emit (.log tag))

/-- The `try` block of `func`, from the first log line to `context.res = { status: 200 }`.
The store is the pair of oracles `env.connect` and `env.documents`; the JSON text of the
query is not rendered in the log tag. -/
def tryBlock (env : Env) (axios : HttpClient) (config : Config) (w : World) :
    Except Thrown Unit × World :=
  match logAndTrack env ("[SCHEDULED-JOBS][BC-RECONCILIATION][DB_NAME][" ++ config.dbName ++ "]")
      w with
  | (.error e, w1) => (.error e, w1)
  | (.ok _, w1) =>
    match env.connect with
    | .error e => (.error e, w1)
    | .ok _ =>
      match logAndTrack env "[SCHEDULED-JOBS][BC-RECONCILIATION][DOCUMENT-QUERY]" w1 with
      | (.error e, w2) => (.error e, w2)
      | (.ok _, w2) =>
        match env.documents with
        | .error e => (.error e, w2)
        | .ok documents =>
          match logAndTrack env ("[SCHEDULED-JOBS][BC-RECONCILIATION][DOCUMENT-COUNT]["
              ++ toString documents.length ++ "]") w2 with
          | (.error e, w3) => (.error e, w3)
          | (.ok _, w3) =>
            match batchArray documents config.batchSize with
            | .error e => (.error e, w3)
            | .ok batches =>
              match logAndTrack env ("[SCHEDULED-JOBS][BC-RECONCILIATION][BATCH-SIZE]["
                  ++ toString config.batchSize ++ "]") w3 with
              | (.error e, w4) => (.error e, w4)
              | (.ok _, w4) =>
                match sendBatches env axios config batches w4 with
                | (.error e, w5) => (.error e, w5)
                | (.ok _, w5) =>
                  match AppInsights.trackEvent env
                      "[SCHEDULED-JOBS][BC-RECONCILIATION][SUCCEEDED]" none w5 with
                  | (.error e, w6) => (.error e, w6)
                  | (.ok _, w6) => (.ok (), w6.emit (.setRes 200 "Success"))

/-- The `catch (error)` block of `func`: log, track the failed request and the `FAILED`
event, set `context.res`, rethrow. -/
def catchBlock (env : Env) (config : Config) (error : Thrown) (w : World) :
    Except Thrown Unit × World :=
  let w1 := w.emit (.logError "Failed to call API for batch:")
  match AppInsights.trackRequest env ("PUT " ++ config.apiName) config.businessContinuityUrl
      error.outcome w1 with
  | (.error thrown, w2) => (.error thrown, w2)
  | (.ok _, w2) =>
    match AppInsights.trackEvent env "[SCHEDULED-JOBS][BC-RECONCILIATION][FAILED]" none w2 with
    | (.error thrown, w3) => (.error thrown, w3)
    | (.ok _, w3) => (.error error, w3.emit (.setRes 500 ("Error: " ++ message error)))

/-- The exported function `func(context, myTimer, overrideConfig)` of the reconciliation
job; `config` is the module-level configuration before the call and `isPastDue` is
`myTimer.IsPastDue`.  The `finally` block closes the store connection on every path
through the `try` statement. -/
def func (env : Env) (axios : HttpClient) (config : Config) (context : Context)
    (isPastDue : Bool) (overrideConfig : Override) (w : World) : Except Thrown Unit × World :=
  match logAndTrack env "[SCHEDULED-JOBS][BC-RECONCILIATION][STARTED]" w with
  | (.error e, w1) => (.error e, w1)
  | (.ok _, w1) =>
    let config := merge config overrideConfig
    let w2 := if isPastDue then
        w1.emit (.log "[SCHEDULED-JOBS][BC-RECONCILIATION][RUNNING-LATE]") else w1
    let w3 := match config.instrumentationKey with
      | some key => if key = "" then w2 else AppInsights.init key context w2
      | none => w2
    let w4 := AxiosInterceptors.init w3
    match tryBlock env axios config w4 with
    | (.ok _, w5) => (.ok (), w5.emit .dbClose)
    | (.error error, w5) =>
      match catchBlock env config error w5 with
      | (r, w6) => (r, w6.emit .dbClose)

end Reconciliation

/-- Five work items, for the examples. -/
def sampleDocuments : List Doc :=
  [ { certNumber := "GBR-2025-CC-0000000001", status := "COMPLETE", timestamp := "t1" },
    { certNumber := "GBR-2025-CC-0000000002", status := "VOID", timestamp := "t2" },
    { certNumber := "GBR-2025-CC-0000000003", status := "COMPLETE", timestamp := "t3" },
    { certNumber := "GBR-2025-CC-0000000004", status := "COMPLETE", timestamp := "t4" },
    { certNumber := "GBR-2025-CC-0000000005", status := "VOID", timestamp := "t5" } ]

/-- An endpoint, for the examples, that answers 200 to every batch except the one made of
the third and fourth sample items, for which the connection always breaks. -/
def sampleEndpoint : Nat → Request → Except Thrown HttpObj :=
  fun _ req =>
    if req.data = some ((sampleDocuments.drop 2).take 2) then .error (.str "Network Error")
    else .ok { status := some 200, data := "success" }

/-- A test double for `axios.post` / `axios.put`: its `i`-th call (counting from 0)
settles as `script i request`, and the request is recorded in the trace. -/
def mocked (script : Nat → Request → Except Thrown HttpObj) : HttpClient :=
  fun req w => (script (requests w.trace).length req, w.emit (.request req))

/-- An attempt of `makeApiCallWithRetry` fails when the PUT rejects or when the status of
its response is not 200. -/
def attemptFailed : Except Thrown HttpObj → Bool
  | .ok response => decide (response.status ≠ some 200)
  | .error _ => true

/-- The value the `catch` clause of `makeApiCallWithRetry` receives for a failed attempt:
the rejection reason, or the `new Error(response)` thrown for a bad status. -/
def caught : Except Thrown HttpObj → Thrown
  | .ok response => .error response.text
  | .error reason => reason

/-! ## What the calls leave in the trace -/

/-- The events that a call `trackRequest(name, url, response)` leaves when the sink does
not throw, for a given state of the telemetry module: nothing before `init`, then the sink
call followed by the line written with `logFn`. -/
def trackedRequest (ins : AppInsightsState) (name url : String) (response : Outcome) :
    List Event :=
  if ins.appInsightsClient then
    .sinkTrackRequest
        { name := name, url := url, duration := response.duration,
          resultCode := response.status, success := decide (response.status = some 200),
          tagOverrides := ins.operationIdOverride }
      :: (if ins.logFn then
            [.logRequestTracked
              { name := name, url := url, duration := response.duration,
                resultCode := response.status, success := decide (response.status = some 200),
                tagOverrides := ins.operationIdOverride }]
          else [])
  else []

/-- The names of the events handed to the sink, in order. -/
def trackedEventNames : List Event → List String
  | [] => []
  | .sinkTrackEvent d :: es => d.name :: trackedEventNames es
  | _ :: es => trackedEventNames es

namespace Landing

/-- The log tag of `httpReq` before the HTTP call of attempt number `attempt`. -/
def makingHttpCallTag (attempt : Int) : String :=
  "[SCHEDULED-JOBS][LANDING-AND-REPORTING][MAKING-HTTP-CALL][ATTEMPT-" ++ toString attempt ++ "]"

/-- The log tag of `httpReq` after the failed HTTP call of attempt number `attempt`. -/
def errorAttemptTag (attempt : Int) : String :=
  "[SCHEDULED-JOBS][LANDING-AND-REPORTING][ERROR][ATTEMPT-" ++ toString attempt ++ "]"

/-- What a failed attempt is expected to leave in the trace: the attempt line, the request,
the error line with the same attempt number, and the tracking of the failed request. -/
def failedAttempt (ins : AppInsightsState) (config : Config) (attempt : Int) (e : Thrown) :
    List Event :=
  [.log (makingHttpCallTag attempt), .request { method := "POST", url := config.url },
    .log (errorAttemptTag attempt)]
    ++ trackedRequest ins "POST /v1/jobs/landings" config.url e.outcome

/-- What a successful attempt is expected to leave in the trace: the attempt line, the
request, and the tracking of the response. -/
def successfulAttempt (ins : AppInsightsState) (config : Config) (attempt : Int)
    (res : HttpObj) : List Event :=
  [.log (makingHttpCallTag attempt), .request { method := "POST", url := config.url }]
    ++ trackedRequest ins "POST /v1/jobs/landings" config.url res.outcome

/-- The part of `func` before the retry sequence, for the merged configuration: the start
line, the late-run line, the activation of telemetry, the CA bundle, the configuration line
and the interceptors. -/
def preamble (env : Env) (config : Config) (context : Context) (isPastDue : Bool)
    (w : World) : World :=
  let w := w.emit (.log "[SCHEDULED-JOBS][LANDING-AND-REPORTING][STARTED]")
  let w := if isPastDue then
      w.emit (.log "[SCHEDULED-JOBS][LANDING-AND-REPORTING][RUNNING-LATE]") else w
  let w := match keyOf config with
    | some key => AppInsights.init key context w
    | none => w
  let w := if env.caBundleReadable then w else
      w.emit (.log ("[SCHEDULED-JOBS][LANDING-AND-REPORTING][ERROR]"
        ++ "[Make sure that the CA pem bundle file named cabundle.pem]"))
  let w := w.emit (.log ("[SCHEDULED-JOBS][LANDING-AND-REPORTING][CONFIG]"
    ++ "[url: " ++ config.url ++ "][timeoutMs: " ++ toString config.timeoutMS ++ "]"
    ++ "[retries: " ++ toString config.retries ++ "][retryDelay: "
    ++ toString config.retryDelay ++ "]"
    ++ "[instrumentationKey: " ++ config.instrumentationKey.getD "null" ++ "]"))
  AxiosInterceptors.init w

/-- The part of `func` after the retry sequence: the `.then` and `.catch` handlers applied
to the settled promise of `retry`. -/
def terminal (env : Env) (settled : Except Thrown Unit × World) : Except Thrown Unit × World :=
  let onRejected : World → Except Thrown Unit × World := fun w =>
    match AppInsights.trackEvent env "[SCHEDULED-JOBS][LANDING-AND-REPORTING][FAILED]" none w with
    | (.ok _, w1) =>
      (.ok (), w1.emit (.log "[SCHEDULED-JOBS][LANDING-AND-REPORTING][ERROR][TERMINATING-RETRIES]"))
    | (.error thrown, w1) => (.error thrown, w1)
  match settled with
  | (.ok _, w1) =>
    match AppInsights.trackEvent env "[SCHEDULED-JOBS][LANDING-AND-REPORTING][SUCCEEDED]" none
        w1 with
    | (.ok _, w2) => (.ok (), w2.emit (.log "[SCHEDULED-JOBS][LANDING-AND-REPORTING][SUCCESS]"))
    | (.error _, w2) => onRejected w2
  | (.error _, w1) => onRejected w1

end Landing

end FesJobs

/-! ## Proofs -/

namespace FesJobs

theorem timeouts_append (l₁ l₂ : List Event) : timeouts (l₁ ++ l₂) = timeouts l₁ ++ timeouts l₂ := by
  induction l₁ with
  | nil => rfl
  | cons e es ih => cases e <;> simp [timeouts, ih]

theorem calls_append (l₁ l₂ : List Event) : calls (l₁ ++ l₂) = calls l₁ ++ calls l₂ := by
  induction l₁ with
  | nil => rfl
  | cons e es ih => cases e <;> simp [calls, ih]

theorem requests_append (l₁ l₂ : List Event) :
    requests (l₁ ++ l₂) = requests l₁ ++ requests l₂ := by
  induction l₁ with
  | nil => rfl
  | cons e es ih => cases e <;> simp [requests, ih]

namespace Landing

/-- One unfolding of `retry` when the call of `fn` resolves. -/
theorem retry_of_ok {α : Type} (fn : Int → Eff α) (retries : Int) (delayFn : Int → Int)
    (w w1 : World) (v : α) (h : fn retries w = (.ok v, w1)) :
    retry fn retries delayFn w = (.ok v, w1) := by
  rw [retry, h]

/-- One unfolding of `retry` when the call of `fn` rejects and retries remain. -/
theorem retry_of_error_pos {α : Type} (fn : Int → Eff α) (retries : Int) (delayFn : Int → Int)
    (w w1 : World) (e : Thrown) (h : fn retries w = (.error e, w1)) (hpos : 0 < retries) :
    retry fn retries delayFn w = retry fn (retries - 1) delayFn (wait (delayFn retries) w1) := by
  rw [retry, h]; simp [hpos]

/-- One unfolding of `retry` when the call of `fn` rejects and no retry remains. -/
theorem retry_of_error_last {α : Type} (fn : Int → Eff α) (retries : Int) (delayFn : Int → Int)
    (w w1 : World) (e : Thrown) (h : fn retries w = (.error e, w1)) (hpos : ¬ 0 < retries) :
    retry fn retries delayFn w = (.error (.str "failed"), w1) := by
  rw [retry, h]; simp [hpos]

/-- Scripted operation: `K` failures followed by a success, from any world. -/
theorem retry_scripted_success {α : Type} (script : Nat → Int → Except Thrown α)
    (delayFn : Int → Int) (v : α) :
    ∀ (K : Nat) (R : Int) (w : World), (K : Int) ≤ R →
      (∀ i, i < K → ∃ e, script ((calls w.trace).length + i) (R - i) = .error e) →
      script ((calls w.trace).length + K) (R - K) = .ok v →
      (retry (scripted script) R delayFn w).1 = .ok v ∧
      calls (retry (scripted script) R delayFn w).2.trace =
        calls w.trace ++ (List.range (K + 1)).map (fun (i : Nat) => R - (i : Int)) := by
  intro K
  induction K with
  | zero =>
    intro R w _ _ hok
    have h : scripted script R w = (.ok v, w.emit (.call R)) := by
      simp only [scripted, Prod.mk.injEq, and_true]
      simpa using hok
    rw [retry_of_ok _ _ _ _ _ _ h]
    simp [World.emit, calls_append, calls, List.range_succ]
  | succ K ih =>
    intro R w hK hfail hok
    obtain ⟨e, he⟩ := hfail 0 (Nat.succ_pos K)
    have h : scripted script R w = (.error e, w.emit (.call R)) := by
      simp only [scripted, Prod.mk.injEq, and_true]
      simpa using he
    have hpos : 0 < R := by push_cast at hK; omega
    rw [retry_of_error_pos _ _ _ _ _ _ h hpos]
    have hlen : (calls (wait (delayFn R) (w.emit (.call R))).trace).length
        = (calls w.trace).length + 1 := by
      simp [wait, World.emit, calls_append, calls]
    have := ih (R - 1) (wait (delayFn R) (w.emit (.call R))) (by push_cast at hK; omega)
      (by
        intro i hi
        obtain ⟨e', he'⟩ := hfail (i + 1) (by omega)
        refine ⟨e', ?_⟩
        rw [hlen]
        have e1 : (calls w.trace).length + 1 + i = (calls w.trace).length + (i + 1) := by omega
        have e2 : R - 1 - (i : Int) = R - ((i + 1 : Nat) : Int) := by push_cast; ring
        rw [e1, e2]; exact he')
      (by
        rw [hlen]
        have e1 : (calls w.trace).length + 1 + K = (calls w.trace).length + (K + 1) := by omega
        have e2 : R - 1 - (K : Int) = R - ((K + 1 : Nat) : Int) := by push_cast; ring
        rw [e1, e2]; exact hok)
    refine ⟨this.1, ?_⟩
    rw [this.2]
    simp only [wait, World.emit, calls_append, calls, List.append_nil, List.append_assoc,
      List.singleton_append]
    rw [List.range_succ_eq_map (K + 1)]
    have hmap : List.map ((fun (i : Nat) => R - (i : Int)) ∘ Nat.succ) (List.range (K + 1))
        = List.map (fun (i : Nat) => R - 1 - (i : Int)) (List.range (K + 1)) := by
      apply List.map_congr_left
      intro i _
      simp only [Function.comp, Nat.succ_eq_add_one]
      push_cast; ring
    simp [hmap]

/-- Scripted operation that keeps failing: `retry` gives up after `R + 1` invocations. -/
theorem retry_scripted_failure {α : Type} (script : Nat → Int → Except Thrown α)
    (delayFn : Int → Int) :
    ∀ (n : Nat) (w : World),
      (∀ i, i ≤ n → ∃ e, script ((calls w.trace).length + i) ((n : Int) - i) = .error e) →
      (retry (scripted script) (n : Int) delayFn w).1 = .error (.str "failed") ∧
      calls (retry (scripted script) (n : Int) delayFn w).2.trace =
        calls w.trace ++ (List.range (n + 1)).map (fun (i : Nat) => (n : Int) - (i : Int)) := by
  intro n
  induction n with
  | zero =>
    intro w hfail
    obtain ⟨e, he⟩ := hfail 0 (Nat.le_refl 0)
    have h : scripted script ((0 : Nat) : Int) w = (.error e, w.emit (.call 0)) := by
      simp only [scripted, Prod.mk.injEq]
      exact ⟨by simpa using he, by simp⟩
    rw [retry_of_error_last _ _ _ _ _ _ h (by simp)]
    simp [World.emit, calls_append, calls, List.range_succ]
  | succ n ih =>
    intro w hfail
    obtain ⟨e, he⟩ := hfail 0 (Nat.zero_le _)
    have h : scripted script ((n + 1 : Nat) : Int) w
        = (.error e, w.emit (.call ((n + 1 : Nat) : Int))) := by
      simp only [scripted, Prod.mk.injEq, and_true]
      simpa using he
    rw [retry_of_error_pos _ _ _ _ _ _ h (by push_cast; omega)]
    have hR : ((n + 1 : Nat) : Int) - 1 = (n : Int) := by push_cast; ring
    rw [hR]
    have hlen : (calls (wait (delayFn ((n + 1 : Nat) : Int))
        (w.emit (.call ((n + 1 : Nat) : Int)))).trace).length = (calls w.trace).length + 1 := by
      simp [wait, World.emit, calls_append, calls]
    have := ih (wait (delayFn ((n + 1 : Nat) : Int)) (w.emit (.call ((n + 1 : Nat) : Int))))
      (by
        intro i hi
        obtain ⟨e', he'⟩ := hfail (i + 1) (by omega)
        refine ⟨e', ?_⟩
        rw [hlen]
        have e1 : (calls w.trace).length + 1 + i = (calls w.trace).length + (i + 1) := by omega
        have e2 : (n : Int) - (i : Int) = ((n + 1 : Nat) : Int) - ((i + 1 : Nat) : Int) := by
          push_cast; ring
        rw [e1, e2]; exact he')
    refine ⟨this.1, ?_⟩
    rw [this.2]
    simp only [wait, World.emit, calls_append, calls, List.append_nil, List.append_assoc,
      List.singleton_append]
    rw [List.range_succ_eq_map (n + 1)]
    have hmap : List.map ((fun (i : Nat) => ((n + 1 : Nat) : Int) - (i : Int)) ∘ Nat.succ)
        (List.range (n + 1)) = List.map (fun (i : Nat) => (n : Int) - (i : Int))
        (List.range (n + 1)) := by
      apply List.map_congr_left
      intro i _
      simp only [Function.comp, Nat.succ_eq_add_one]
      push_cast; ring
    simp [hmap]

/-- The `time || 0` of `wait` leaves an integer delay unchanged. -/
theorem wait_eq (time : Int) (w : World) : wait time w = w.emit (.setTimeout time) := by
  unfold wait
  split
  · rfl
  · next h => simp only [ne_eq, not_not] at h; rw [h]

/-- When every call of `fn` rejects and `fn` itself sets no timer, `retry` awaits the
delays `delayFn n, delayFn (n - 1), ..., delayFn 1`, in that order. -/
theorem retry_timeouts_of_failing {α : Type} (fn : Int → Eff α) (delayFn : Int → Int)
    (hfail : ∀ a w, ∃ e, (fn a w).1 = .error e)
    (hframe : ∀ a w, timeouts (fn a w).2.trace = timeouts w.trace) :
    ∀ (n : Nat) (w : World),
      timeouts (retry fn (n : Int) delayFn w).2.trace =
        timeouts w.trace ++ (List.range n).map (fun (i : Nat) => delayFn ((n : Int) - (i : Int))) := by
  intro n
  induction n with
  | zero =>
    intro w
    obtain ⟨e, he⟩ := hfail ((0 : Nat) : Int) w
    have h : fn ((0 : Nat) : Int) w = (.error e, (fn ((0 : Nat) : Int) w).2) := Prod.ext he rfl
    rw [retry_of_error_last _ _ _ _ _ _ h (by simp)]
    simp [hframe]
  | succ n ih =>
    intro w
    obtain ⟨e, he⟩ := hfail ((n + 1 : Nat) : Int) w
    have h : fn ((n + 1 : Nat) : Int) w = (.error e, (fn ((n + 1 : Nat) : Int) w).2) :=
      Prod.ext he rfl
    rw [retry_of_error_pos _ _ _ _ _ _ h (by push_cast; omega)]
    have hR : ((n + 1 : Nat) : Int) - 1 = (n : Int) := by push_cast; ring
    rw [hR, ih, wait_eq]
    simp only [World.emit, timeouts_append, timeouts, hframe, List.append_assoc,
      List.singleton_append]
    rw [List.range_succ_eq_map n]
    have hmap : List.map ((fun (i : Nat) => delayFn (((n + 1 : Nat) : Int) - (i : Int))) ∘ Nat.succ)
        (List.range n) = List.map (fun (i : Nat) => delayFn ((n : Int) - (i : Int)))
        (List.range n) := by
      apply List.map_congr_left
      intro i _
      simp only [Function.comp, Nat.succ_eq_add_one]
      congr 1
      push_cast; ring
    simp [hmap]

/-- C1: for every `R ≥ 0`, if the operation given to `retry` rejects on its first `K` calls
and resolves with `v` on the next one, with `K ≤ R`, then `retry` resolves with `v` and the
operation has been invoked exactly `K + 1` times (with `R, R - 1, ..., R - K` retries
remaining); if the operation rejects on every call, it is invoked exactly `R + 1` times and
`retry` rejects (with the string `'failed'`). -/
theorem retry_invocation_count {α : Type} (script : Nat → Int → Except Thrown α)
    (delayFn : Int → Int) (R : Int) (hR : 0 ≤ R) (w : World) :
    (∀ (K : Nat) (v : α), (K : Int) ≤ R →
      (∀ i, i < K → ∃ e, script ((calls w.trace).length + i) (R - i) = .error e) →
      script ((calls w.trace).length + K) (R - K) = .ok v →
        (retry (scripted script) R delayFn w).1 = .ok v ∧
        (calls (retry (scripted script) R delayFn w).2.trace).length
          = (calls w.trace).length + (K + 1) ∧
        calls (retry (scripted script) R delayFn w).2.trace
          = calls w.trace ++ (List.range (K + 1)).map (fun (i : Nat) => R - (i : Int))) ∧
    ((∀ i a, ∃ e, script i a = .error e) →
        (retry (scripted script) R delayFn w).1 = .error (.str "failed") ∧
        (calls (retry (scripted script) R delayFn w).2.trace).length
          = (calls w.trace).length + (R.toNat + 1)) := by
  constructor
  · intro K v hK hfail hok
    have h := retry_scripted_success script delayFn v K R w hK hfail hok
    refine ⟨h.1, ?_, h.2⟩
    rw [h.2]; simp
  · intro hfail
    have hn : ((R.toNat : Nat) : Int) = R := Int.toNat_of_nonneg hR
    have h := retry_scripted_failure script delayFn R.toNat w (fun i _ => hfail _ _)
    rw [hn] at h
    refine ⟨h.1, ?_⟩
    rw [h.2]; simp

/-- Instance of C1: four retries; an operation that is down twice and then answers `7` is
invoked three times, an operation that is always down is invoked five times. -/
theorem retry_invocation_count_witness :
    ((retry (scripted (fun i _ => if i < 2 then .error (.str "down") else .ok (7 : Nat))) 4
        (fun _ => 0) {}).1 = .ok 7 ∧
      (calls (retry (scripted (fun i _ => if i < 2 then .error (.str "down") else .ok (7 : Nat)))
        4 (fun _ => 0) {}).2.trace).length = 3) ∧
    ((retry (scripted (fun _ _ => (.error (.str "down") : Except Thrown Nat))) 4
        (fun _ => 0) {}).1 = .error (.str "failed") ∧
      (calls (retry (scripted (fun _ _ => (.error (.str "down") : Except Thrown Nat))) 4
        (fun _ => 0) {}).2.trace).length = 5) := by
  have h := (retry_invocation_count
    (fun i _ => if i < 2 then .error (.str "down") else .ok (7 : Nat)) (fun _ => 0) 4
    (by decide) {}).1 2 7 (by decide)
    (by intro i hi; exact ⟨.str "down", by simp [calls, hi]⟩) (by simp [calls])
  have h' := (retry_invocation_count
    (fun _ _ => (.error (.str "down") : Except Thrown Nat)) (fun _ => 0) 4
    (by decide) {}).2 (fun _ _ => ⟨.str "down", rfl⟩)
  exact ⟨⟨h.1, h.2.1⟩, h'⟩

/-- C4: with `calcDelay(d, R)` as delay function and an operation that rejects on every
call (and sets no timer of its own), the delays that `retry` hands to `wait`, hence to
`setTimeout`, are exactly `0, d, 2d, ..., (R - 1) d` in that order; for `R = 4` they are
`[0, d, 2d, 3d]`. -/
theorem retry_calcDelay_schedule {α : Type} (fn : Int → Eff α) (d R : Int) (hR : 1 ≤ R)
    (w : World) (hfail : ∀ a w, ∃ e, (fn a w).1 = .error e)
    (hframe : ∀ a w, timeouts (fn a w).2.trace = timeouts w.trace) :
    timeouts (retry fn R (calcDelay d R) w).2.trace
      = timeouts w.trace ++ (List.range R.toNat).map (fun (i : Nat) => (i : Int) * d) ∧
    (R = 4 → timeouts (retry fn R (calcDelay d R) w).2.trace
      = timeouts w.trace ++ [0, d, 2 * d, 3 * d]) := by
  have hn : ((R.toNat : Nat) : Int) = R := Int.toNat_of_nonneg (by omega)
  have h := retry_timeouts_of_failing fn (calcDelay d R) hfail hframe R.toNat w
  rw [hn] at h
  have hmap : List.map (fun (i : Nat) => calcDelay d R (R - (i : Int))) (List.range R.toNat)
      = List.map (fun (i : Nat) => (i : Int) * d) (List.range R.toNat) := by
    apply List.map_congr_left
    intro i _
    simp only [calcDelay]
    ring
  rw [hmap] at h
  refine ⟨h, ?_⟩
  intro h4
  rw [h]
  subst h4
  simp [List.range_succ]

/-- Instance of C4: four retries of an operation that always rejects, base delay 300000. -/
theorem retry_calcDelay_schedule_witness :
    timeouts (retry (scripted (fun _ _ => (.error (.str "down") : Except Thrown Unit))) 4
      (calcDelay 300000 4) {}).2.trace = [0, 300000, 600000, 900000] := by
  have h := (retry_calcDelay_schedule
    (scripted (fun _ _ => (.error (.str "down") : Except Thrown Unit))) 300000 4 (by decide) {}
    (fun _ _ => ⟨.str "down", rfl⟩)
    (fun a w => by simp [scripted, World.emit, timeouts_append, timeouts])).2 rfl
  simpa [timeouts] using h

end Landing

end FesJobs

namespace FesJobs

/-- For natural indices `s ≤ e` the slice is "drop `s`, then take `e - s`". -/
theorem slice_natCast {α : Type} (l : List α) (s e : Nat) (h : s ≤ e) :
    slice l (s : Int) (e : Int) = (l.drop s).take (e - s) := by
  unfold slice
  have h1 : ¬ ((s : Int) < 0) := by omega
  have h2 : ¬ ((e : Int) < 0) := by omega
  simp only [h1, h2, if_false]
  rcases le_or_lt s l.length with hs | hs
  · have hk : (min (s : Int) (l.length : Int)).toNat = s := by omega
    rw [hk, List.take_eq_take]
    simp only [List.length_drop]
    omega
  · have hk : (min (s : Int) (l.length : Int)).toNat = l.length := by omega
    rw [hk, List.drop_of_length_le (Nat.le_refl _), List.drop_of_length_le (Nat.le_of_lt hs)]
    simp

/-- The batches of a list cut at multiples of `b`: `k` slices of width `b`. -/
theorem map_slice_eq {α : Type} (l : List α) (b k : Nat) :
    (List.range k).map
      (fun (index : Nat) => slice l ((index : Int) * (b : Int)) (((index : Int) + 1) * (b : Int)))
    = (List.range k).map (fun (index : Nat) => (l.drop (index * b)).take b) := by
  apply List.map_congr_left
  intro i _
  have h := slice_natCast l (i * b) ((i + 1) * b) (Nat.mul_le_mul_right b (Nat.le_succ i))
  have e : (i + 1) * b - i * b = b := by
    rw [Nat.succ_mul]; omega
  rw [e] at h
  rw [← h]
  push_cast
  rfl

/-- Cutting a list into `k` consecutive pieces of width `b` loses nothing when `k * b`
reaches the end of the list. -/
theorem flatten_pieces {α : Type} (b : Nat) :
    ∀ (k : Nat) (l : List α), l.length ≤ k * b →
      ((List.range k).map (fun index => (l.drop (index * b)).take b)).flatten = l := by
  intro k
  induction k with
  | zero =>
    intro l hl
    have : l = [] := List.length_eq_zero.mp (by omega)
    simp [this]
  | succ k ih =>
    intro l hl
    rw [List.range_succ_eq_map, List.map_cons, List.map_map, List.flatten_cons]
    have htail : List.map ((fun index => (l.drop (index * b)).take b) ∘ Nat.succ) (List.range k)
        = List.map (fun index => ((l.drop b).drop (index * b)).take b) (List.range k) := by
      apply List.map_congr_left
      intro i _
      simp only [Function.comp, List.drop_drop, Nat.succ_eq_add_one]
      congr 2
      rw [Nat.succ_mul]; omega
    rw [htail, ih (l.drop b) (by rw [List.length_drop, Nat.succ_mul] at *; omega)]
    simp

/-- The sizes of the pieces: piece `i` has `min b (n - i * b)` elements. -/
theorem map_length_pieces {α : Type} (b k : Nat) (l : List α) :
    ((List.range k).map (fun index => (l.drop (index * b)).take b)).map List.length
      = (List.range k).map (fun index => min b (l.length - index * b)) := by
  rw [List.map_map]
  apply List.map_congr_left
  intro i _
  simp

/-- For a positive `batchSize` the integer form of `Math.ceil` is the ceiling of the
rational quotient. -/
theorem neg_fdiv_neg_eq_ceil (len : Nat) (b : Int) (hb : 0 < b) :
    -(Int.fdiv (-(len : Int)) b) = ⌈((len : ℚ) / (b : ℚ))⌉ := by
  obtain ⟨n, rfl⟩ := Int.eq_ofNat_of_zero_le (le_of_lt hb)
  rw [Int.fdiv_eq_ediv _ (le_of_lt hb)]
  have h := Rat.floor_intCast_div_natCast (-(len : Int)) n
  have h2 : ((-(len : Int) : Int) : ℚ) / (n : ℚ) = -((len : ℚ) / (n : ℚ)) := by
    push_cast; ring
  rw [h2, Int.floor_neg] at h
  simp only [Int.cast_natCast]
  omega

/-- For a positive `batchSize`, the number of batches as a natural number. -/
theorem neg_fdiv_neg_toNat (len b : Nat) (hb : 0 < b) :
    (-(Int.fdiv (-(len : Int)) (b : Int))).toNat = (len + b - 1) / b := by
  rw [Int.fdiv_eq_ediv _ (Int.ofNat_nonneg b)]
  have hb' : (0 : Int) < (b : Int) := by exact_mod_cast hb
  have key : -(-(len : Int) / (b : Int)) = (((len + b - 1) / b : Nat) : Int) := by
    have h1 : ((len + b - 1 : Nat) : Int) = (len : Int) + b - 1 := by omega
    rw [Int.natCast_div, h1]
    have hq := Int.ediv_add_emod (-(len : Int)) (b : Int)
    have hr := Int.emod_nonneg (-(len : Int)) (ne_of_gt hb')
    have hr2 := Int.emod_lt_of_pos (-(len : Int)) hb'
    have hq' := Int.ediv_add_emod ((len : Int) + b - 1) (b : Int)
    have hr' := Int.emod_nonneg ((len : Int) + b - 1) (ne_of_gt hb')
    have hr2' := Int.emod_lt_of_pos ((len : Int) + b - 1) hb'
    have : (b : Int) * (-(-(len : Int) / (b : Int)) - ((len : Int) + b - 1) / (b : Int))
        = (-(len : Int)) % b + ((len : Int) + b - 1) % b - (b - 1) := by
      rw [mul_sub, mul_neg]; omega
    have hlt : -(1 : Int) < (-(-(len : Int) / (b : Int)) - ((len : Int) + b - 1) / (b : Int)) := by
      by_contra hc
      have hc' : (-(-(len : Int) / (b : Int)) - ((len : Int) + b - 1) / (b : Int)) ≤ -1 := by omega
      have := mul_le_mul_of_nonneg_left hc' (le_of_lt hb')
      omega
    have hgt : (-(-(len : Int) / (b : Int)) - ((len : Int) + b - 1) / (b : Int)) < 1 := by
      by_contra hc
      have hc' : 1 ≤ (-(-(len : Int) / (b : Int)) - ((len : Int) + b - 1) / (b : Int)) := by omega
      have := mul_le_mul_of_nonneg_left hc' (le_of_lt hb')
      omega
    omega
  rw [key]
  exact Int.toNat_ofNat _

/-- The number of pieces `(n + b - 1) / b` is the least `k` with `n ≤ k * b`. -/
theorem pieces_bounds (n b : Nat) (hb : 0 < b) :
    n ≤ (n + b - 1) / b * b ∧ (n + b - 1) / b * b < n + b := by
  have h := Nat.div_add_mod (n + b - 1) b
  have hr := Nat.mod_lt (n + b - 1) hb
  rw [Nat.mul_comm] at h
  constructor <;> omega

namespace Reconciliation

/-- With a positive `batchSize`, `batchArray` returns the consecutive pieces of width
`batchSize`. -/
theorem batchArray_of_pos {α : Type} (l : List α) (b : Nat) (hb : 0 < b) :
    batchArray l (b : Int)
      = .ok ((List.range ((l.length + b - 1) / b)).map
          (fun (index : Nat) => (l.drop (index * b)).take b)) := by
  have hb0 : ¬ ((b : Int) = 0) := by omega
  have hk := neg_fdiv_neg_toNat l.length b hb
  unfold batchArray mathCeilDiv arrayFrom
  simp only [hb0, if_false]
  split
  · next hn =>
    have h0 : (l.length + b - 1) / b = 0 := by
      rw [← hk]; omega
    simp [h0]
  · rw [hk, map_slice_eq]

/-- C6: for every list and every integer `batchSize ≥ 1`, `batchArray` returns batches
whose concatenation, in order, is the list itself, and the number of batches is
`ceil(length / batchSize)`. -/
theorem batchArray_flatten_count {α : Type} (items : List α) (batchSize : Int)
    (h : 1 ≤ batchSize) :
    ∃ batches, batchArray items batchSize = .ok batches ∧
      batches.flatten = items ∧
      (batches.length : Int) = ⌈((items.length : ℚ) / (batchSize : ℚ))⌉ := by
  obtain ⟨b, rfl⟩ := Int.eq_ofNat_of_zero_le (by omega : 0 ≤ batchSize)
  have hb : 0 < b := by omega
  refine ⟨_, batchArray_of_pos items b hb, ?_, ?_⟩
  · exact flatten_pieces b _ items (pieces_bounds items.length b hb).1
  · have hc := neg_fdiv_neg_eq_ceil items.length (b : Int) (by omega)
    have hk := neg_fdiv_neg_toNat items.length b hb
    have hnn : (0 : Int) ≤ ⌈((items.length : ℚ) / ((b : Int) : ℚ))⌉ :=
      Int.ceil_nonneg (div_nonneg (by positivity) (by positivity))
    simp only [List.length_map, List.length_range]
    rw [← hc, ← hk]
    rw [← hc] at hnn
    omega

/-- Instance of C6: five items in batches of two. -/
theorem batchArray_flatten_count_witness :
    ∃ batches, batchArray [1, 2, 3, 4, 5] 2 = .ok batches ∧
      batches.flatten = [1, 2, 3, 4, 5] ∧
      (batches.length : Int) = ⌈((([1, 2, 3, 4, 5] : List Nat).length : ℚ) / ((2 : Int) : ℚ))⌉ :=
  batchArray_flatten_count [1, 2, 3, 4, 5] 2 (by decide)

/-- The sizes of the batches for a non-empty list and a positive width: all but the last
are full, the last holds the remainder (or is full when the width divides the length). -/
theorem pieces_sizes (n b : Nat) (hb : 0 < b) (hn : 0 < n) :
    (List.range ((n + b - 1) / b)).map (fun (index : Nat) => min b (n - index * b))
      = List.replicate ((n + b - 1) / b - 1) b ++ [if n % b = 0 then b else n % b] := by
  obtain ⟨hA, hB⟩ := pieces_bounds n b hb
  obtain ⟨k, hk⟩ : ∃ k, (n + b - 1) / b = k + 1 := by
    rcases Nat.eq_zero_or_pos ((n + b - 1) / b) with h0 | hpos
    · rw [h0] at hA; omega
    · exact ⟨(n + b - 1) / b - 1, by omega⟩
  rw [hk] at hA hB ⊢
  rw [Nat.succ_mul] at hA hB
  rw [List.range_succ, List.map_append, Nat.add_sub_cancel]
  congr 1
  · rw [List.eq_replicate_iff]
    refine ⟨by simp, ?_⟩
    intro x hx
    rw [List.mem_map] at hx
    obtain ⟨i, hi, rfl⟩ := hx
    rw [List.mem_range] at hi
    have : (i + 1) * b ≤ k * b := Nat.mul_le_mul_right b hi
    rw [Nat.succ_mul] at this
    omega
  · simp only [List.map_cons, List.map_nil, List.cons.injEq, and_true]
    have hx : n = (n - k * b) + k * b := by omega
    have hmod : n % b = (n - k * b) % b := by
      conv_lhs => rw [hx]
      exact Nat.add_mul_mod_self_right _ _ _
    rcases Nat.lt_or_ge (n - k * b) b with hlt | hge
    · rw [hmod, Nat.mod_eq_of_lt hlt]
      have : n - k * b ≠ 0 := by omega
      simp [this]
      omega
    · have heq : n - k * b = b := by omega
      rw [hmod, heq, Nat.mod_self]
      simp

/-- C7: for every non-empty list and every integer `batchSize ≥ 1`, every batch returned
by `batchArray` except the last has exactly `batchSize` items and the last has
`length mod batchSize` items, or `batchSize` items when `batchSize` divides the length;
2500 items with `batchSize` 1000 give batches of sizes `[1000, 1000, 500]`. -/
theorem batchArray_sizes {α : Type} (items : List α) (batchSize : Int)
    (h : 1 ≤ batchSize) (hne : items ≠ []) :
    ∃ batches, batchArray items batchSize = .ok batches ∧
      batches.map (fun batch => (batch.length : Int))
        = List.replicate (batches.length - 1) batchSize ++
            [if (items.length : Int) % batchSize = 0 then batchSize
             else (items.length : Int) % batchSize] ∧
      (items.length = 2500 → batchSize = 1000 →
        batches.map List.length = [1000, 1000, 500]) := by
  obtain ⟨b, rfl⟩ := Int.eq_ofNat_of_zero_le (by omega : 0 ≤ batchSize)
  have hb : 0 < b := by omega
  have hn : 0 < items.length := List.length_pos.mpr hne
  have hsz := pieces_sizes items.length b hb hn
  have hlen := map_length_pieces b ((items.length + b - 1) / b) items
  rw [hsz] at hlen
  refine ⟨_, batchArray_of_pos items b hb, ?_, ?_⟩
  · have e : (fun batch : List α => (batch.length : Int))
        = (fun (n : Nat) => (n : Int)) ∘ List.length := rfl
    rw [e, ← List.map_map, hlen]
    simp only [List.length_map, List.length_range, List.map_append, List.map_replicate,
      List.map_cons, List.map_nil]
    congr 2
    split
    · next h0 =>
      have : (items.length : Int) % (b : Int) = 0 := by exact_mod_cast h0
      simp [this]
    · next h0 =>
      have : ¬ ((items.length : Int) % (b : Int) = 0) := by exact_mod_cast h0
      simp [this]
  · intro h1 h2
    have hb2 : b = 1000 := by omega
    rw [hlen, h1, hb2]
    decide

/-- Instance of C7: 2500 items with `batchSize` 1000. -/
theorem batchArray_sizes_witness :
    ∃ batches, batchArray (List.replicate 2500 "doc") 1000 = .ok batches ∧
      batches.map List.length = [1000, 1000, 500] := by
  obtain ⟨batches, h1, _, h3⟩ :=
    batchArray_sizes (List.replicate 2500 "doc") 1000 (by decide)
      (fun hnil => by
        have hl := congrArg List.length hnil
        rw [List.length_replicate] at hl
        exact absurd hl (by decide))
  exact ⟨batches, h1, h3 (List.length_replicate 2500 "doc") rfl⟩

/-- With a negative `batchSize` the computed length is not positive. -/
theorem neg_fdiv_neg_nonpos (len : Nat) (b : Int) (hb : b < 0) :
    -(Int.fdiv (-(len : Int)) b) ≤ 0 := by
  obtain ⟨m, rfl⟩ := Int.eq_negSucc_of_lt_zero hb
  cases len with
  | zero => simp [Int.fdiv]
  | succ n =>
    have e : -(((n + 1 : Nat) : Int)) = Int.negSucc n := rfl
    rw [e]
    simp only [Int.fdiv]
    exact Int.neg_nonpos_of_nonneg (Int.ofNat_nonneg (n.succ / m.succ))

/-- C8, counterexample: with `batchSize = -1` the call returns normally, with no batches
at all, although the list has three items; no error is signalled. -/
theorem batchArray_negative_no_error :
    batchArray ([1, 2, 3] : List Nat) (-1) = .ok [] ∧
    ¬ ∃ e, batchArray ([1, 2, 3] : List Nat) (-1) = .error e := by
  constructor
  · decide
  · rintro ⟨e, he⟩
    have h : batchArray ([1, 2, 3] : List Nat) (-1) = .ok [] := by decide
    rw [h] at he
    cases he

/-- C8, as amended: for `batchSize ≤ 0` no validation takes place.  A negative
`batchSize` makes `batchArray` return an empty array of batches; `batchSize = 0` makes the
array constructor throw a `RangeError` when the list is non-empty, and gives an empty array
of batches when the list is empty. -/
theorem batchArray_nonpositive {α : Type} (items : List α) (batchSize : Int)
    (h : batchSize ≤ 0) :
    batchArray items batchSize
      = if batchSize = 0 ∧ 0 < items.length then .error (.rangeError "Invalid array length")
        else .ok [] := by
  unfold batchArray mathCeilDiv arrayFrom
  by_cases h0 : batchSize = 0
  · subst h0
    cases items with
    | nil => simp
    | cons a as => simp
  · have hneg : batchSize < 0 := by omega
    have := neg_fdiv_neg_nonpos items.length batchSize hneg
    simp [h0, this]

/-- Instance of the amended C8: three items and `batchSize = 0`. -/
theorem batchArray_nonpositive_witness :
    batchArray ([1, 2, 3] : List Nat) 0 = .error (.rangeError "Invalid array length") := by
  have h := batchArray_nonpositive ([1, 2, 3] : List Nat) 0 (by decide)
  simpa using h

/-- One iteration of the loop that ends with a response of status 200. -/
theorem loop_of_success (script : Nat → Request → Except Thrown HttpObj)
    (url apiName : String) (data : List Doc) (N d : Int) (c : Nat) (w : World)
    (response : HttpObj) (hc : (c : Int) < N)
    (hs : script (requests w.trace).length
      { method := "PUT", url := url ++ apiName, data := some data } = .ok response)
    (h200 : response.status = some 200) :
    ∃ w', makeApiCallLoop (mocked script) url apiName data N d c w = (.ok (some response), w') ∧
      requests w'.trace = requests w.trace
        ++ [{ method := "PUT", url := url ++ apiName, data := some data }] ∧
      timeouts w'.trace = timeouts w.trace := by
  rw [makeApiCallLoop]
  simp [hc, mocked, World.emit, requests_append, requests, timeouts_append, timeouts, hs, h200]

/-- One iteration of the loop that fails with no attempt left: the loop throws. -/
theorem loop_of_last_failure (script : Nat → Request → Except Thrown HttpObj)
    (url apiName : String) (data : List Doc) (N d : Int) (c : Nat) (w : World)
    (hc : (c : Int) < N) (hlast : (c : Int) + 1 ≥ N)
    (hf : attemptFailed (script (requests w.trace).length
      { method := "PUT", url := url ++ apiName, data := some data }) = true) :
    ∃ w', makeApiCallLoop (mocked script) url apiName data N d c w
        = (.error (.error ("Max retries exceeded" ++ (caught (script (requests w.trace).length
            { method := "PUT", url := url ++ apiName, data := some data })).toStr)), w') ∧
      requests w'.trace = requests w.trace
        ++ [{ method := "PUT", url := url ++ apiName, data := some data }] ∧
      timeouts w'.trace = timeouts w.trace := by
  rw [makeApiCallLoop]
  cases hscr : script (requests w.trace).length
      { method := "PUT", url := url ++ apiName, data := some data } with
  | error e =>
    simp [hc, hlast, mocked, World.emit, requests_append, requests, timeouts_append, timeouts,
      hscr, caught]
  | ok r =>
    rw [hscr] at hf
    simp only [attemptFailed, decide_eq_true_eq] at hf
    simp [hc, hlast, mocked, World.emit, requests_append, requests, timeouts_append, timeouts,
      hscr, caught, hf]

/-- One iteration of the loop that fails with attempts left: wait `2^(c+1) * d`, go on. -/
theorem loop_of_failure (script : Nat → Request → Except Thrown HttpObj)
    (url apiName : String) (data : List Doc) (N d : Int) (c : Nat) (w : World)
    (hmore : (c : Int) + 1 < N)
    (hf : attemptFailed (script (requests w.trace).length
      { method := "PUT", url := url ++ apiName, data := some data }) = true) :
    ∃ w', makeApiCallLoop (mocked script) url apiName data N d c w
        = makeApiCallLoop (mocked script) url apiName data N d (c + 1) w' ∧
      requests w'.trace = requests w.trace
        ++ [{ method := "PUT", url := url ++ apiName, data := some data }] ∧
      timeouts w'.trace = timeouts w.trace ++ [2 ^ (c + 1) * d] := by
  have hc : (c : Int) < N := by omega
  have hnot : ¬ ((c : Int) + 1 ≥ N) := by omega
  rw [makeApiCallLoop]
  cases hscr : script (requests w.trace).length
      { method := "PUT", url := url ++ apiName, data := some data } with
  | error e =>
    simp only [hc, ↓reduceDIte, mocked, World.emit, requests_append, requests,
      List.append_nil, hscr, hnot, ↓reduceIte]
    exact ⟨_, rfl, by simp [requests_append, requests], by simp [timeouts_append, timeouts]⟩
  | ok r =>
    rw [hscr] at hf
    simp only [attemptFailed, decide_eq_true_eq] at hf
    simp only [hc, ↓reduceDIte, mocked, World.emit, requests_append, requests,
      List.append_nil, hscr, hnot, ↓reduceIte, hf, ne_eq, not_false_eq_true]
    exact ⟨_, rfl, by simp [requests_append, requests], by simp [timeouts_append, timeouts]⟩

/-- The loop entered with `retryCount = c`, when the next `K` attempts fail and the one
after them is answered with status 200. -/
theorem loop_success (script : Nat → Request → Except Thrown HttpObj)
    (url apiName : String) (data : List Doc) (N d : Int) (response : HttpObj)
    (h200 : response.status = some 200) :
    ∀ (K c : Nat) (w : World), (c : Int) + K < N →
      (∀ i, i < K → attemptFailed (script ((requests w.trace).length + i)
        { method := "PUT", url := url ++ apiName, data := some data }) = true) →
      script ((requests w.trace).length + K)
        { method := "PUT", url := url ++ apiName, data := some data } = .ok response →
      (makeApiCallLoop (mocked script) url apiName data N d c w).1 = .ok (some response) ∧
      requests (makeApiCallLoop (mocked script) url apiName data N d c w).2.trace
        = requests w.trace ++ List.replicate (K + 1)
            { method := "PUT", url := url ++ apiName, data := some data } ∧
      timeouts (makeApiCallLoop (mocked script) url apiName data N d c w).2.trace
        = timeouts w.trace ++ (List.range K).map (fun (i : Nat) => 2 ^ (c + i + 1) * d) := by
  intro K
  induction K with
  | zero =>
    intro c w hc _ hok
    obtain ⟨w', h1, h2, h3⟩ := loop_of_success script url apiName data N d c w response
      (by simpa using hc) (by simpa using hok) h200
    rw [h1]
    exact ⟨rfl, by simpa using h2, by simpa using h3⟩
  | succ K ih =>
    intro c w hc hfail hok
    obtain ⟨w', h1, h2, h3⟩ := loop_of_failure script url apiName data N d c w
      (by push_cast at hc; omega) (by simpa using hfail 0 (Nat.succ_pos K))
    have hlen : (requests w'.trace).length = (requests w.trace).length + 1 := by
      rw [h2]; simp
    have := ih (c + 1) w' (by push_cast at hc ⊢; omega)
      (by
        intro i hi
        rw [hlen]
        have e1 : (requests w.trace).length + 1 + i = (requests w.trace).length + (i + 1) := by
          omega
        rw [e1]
        exact hfail (i + 1) (by omega))
      (by
        rw [hlen]
        have e1 : (requests w.trace).length + 1 + K = (requests w.trace).length + (K + 1) := by
          omega
        rw [e1]
        exact hok)
    rw [h1]
    refine ⟨this.1, ?_, ?_⟩
    · rw [this.2.1, h2, List.replicate_succ (n := K + 1)]
      simp
    · rw [this.2.2, h3, List.range_succ_eq_map K]
      have hmap : List.map ((fun (i : Nat) => 2 ^ (c + i + 1) * d) ∘ Nat.succ) (List.range K)
          = List.map (fun (i : Nat) => 2 ^ (c + 1 + i + 1) * d) (List.range K) := by
        apply List.map_congr_left
        intro i _
        simp only [Function.comp, Nat.succ_eq_add_one]
        congr 2
        omega
      simp [hmap]

/-- The loop entered with `retryCount = c` and `m + 1` attempts left, all of which fail. -/
theorem loop_failure (script : Nat → Request → Except Thrown HttpObj)
    (url apiName : String) (data : List Doc) (N d : Int) :
    ∀ (m c : Nat) (w : World), (c : Int) + m + 1 = N →
      (∀ i, i ≤ m → attemptFailed (script ((requests w.trace).length + i)
        { method := "PUT", url := url ++ apiName, data := some data }) = true) →
      (makeApiCallLoop (mocked script) url apiName data N d c w).1
        = .error (.error ("Max retries exceeded"
            ++ (caught (script ((requests w.trace).length + m)
                { method := "PUT", url := url ++ apiName, data := some data })).toStr)) ∧
      requests (makeApiCallLoop (mocked script) url apiName data N d c w).2.trace
        = requests w.trace ++ List.replicate (m + 1)
            { method := "PUT", url := url ++ apiName, data := some data } ∧
      timeouts (makeApiCallLoop (mocked script) url apiName data N d c w).2.trace
        = timeouts w.trace ++ (List.range m).map (fun (i : Nat) => 2 ^ (c + i + 1) * d) := by
  intro m
  induction m with
  | zero =>
    intro c w hc hfail
    obtain ⟨w', h1, h2, h3⟩ := loop_of_last_failure script url apiName data N d c w
      (by push_cast at hc; omega) (by push_cast at hc; omega) (by simpa using hfail 0 (Nat.le_refl 0))
    rw [h1]
    exact ⟨rfl, by simpa using h2, by simpa using h3⟩
  | succ m ih =>
    intro c w hc hfail
    obtain ⟨w', h1, h2, h3⟩ := loop_of_failure script url apiName data N d c w
      (by push_cast at hc; omega) (by simpa using hfail 0 (Nat.zero_le _))
    have hlen : (requests w'.trace).length = (requests w.trace).length + 1 := by
      rw [h2]; simp
    have := ih (c + 1) w' (by push_cast at hc ⊢; omega)
      (by
        intro i hi
        rw [hlen]
        have e1 : (requests w.trace).length + 1 + i = (requests w.trace).length + (i + 1) := by
          omega
        rw [e1]
        exact hfail (i + 1) (by omega))
    rw [h1]
    have e2 : (requests w'.trace).length + m = (requests w.trace).length + (m + 1) := by omega
    rw [e2] at this
    refine ⟨this.1, ?_, ?_⟩
    · rw [this.2.1, h2, List.replicate_succ (n := m + 1)]
      simp
    · rw [this.2.2, h3, List.range_succ_eq_map m]
      have hmap : List.map ((fun (i : Nat) => 2 ^ (c + i + 1) * d) ∘ Nat.succ) (List.range m)
          = List.map (fun (i : Nat) => 2 ^ (c + 1 + i + 1) * d) (List.range m) := by
        apply List.map_congr_left
        intro i _
        simp only [Function.comp, Nat.succ_eq_add_one]
        congr 2
        omega
      simp [hmap]

/-- C2: with `maxRetries = N ≥ 1`, if the first `K` attempts fail (the PUT rejects or its
response status is not 200) and attempt `K + 1` is answered with status 200, `K < N`, then
`axios.put` is invoked exactly `K + 1` times and that response is returned; if every attempt
fails, `axios.put` is invoked exactly `N` times and the function throws
(`Max retries exceeded` followed by the last error). -/
theorem makeApiCallWithRetry_attempts (script : Nat → Request → Except Thrown HttpObj)
    (url apiName : String) (data : List Doc) (N d : Int) (hN : 1 ≤ N) (w : World) :
    (∀ (K : Nat) (response : HttpObj), (K : Int) < N →
      (∀ i, i < K → attemptFailed (script ((requests w.trace).length + i)
        { method := "PUT", url := url ++ apiName, data := some data }) = true) →
      script ((requests w.trace).length + K)
        { method := "PUT", url := url ++ apiName, data := some data } = .ok response →
      response.status = some 200 →
      (makeApiCallWithRetry (mocked script) url apiName data N d w).1 = .ok (some response) ∧
      requests (makeApiCallWithRetry (mocked script) url apiName data N d w).2.trace
        = requests w.trace ++ List.replicate (K + 1)
            { method := "PUT", url := url ++ apiName, data := some data }) ∧
    ((∀ i, attemptFailed (script i
        { method := "PUT", url := url ++ apiName, data := some data }) = true) →
      (makeApiCallWithRetry (mocked script) url apiName data N d w).1
        = .error (.error ("Max retries exceeded"
            ++ (caught (script ((requests w.trace).length + (N.toNat - 1))
                { method := "PUT", url := url ++ apiName, data := some data })).toStr)) ∧
      requests (makeApiCallWithRetry (mocked script) url apiName data N d w).2.trace
        = requests w.trace ++ List.replicate N.toNat
            { method := "PUT", url := url ++ apiName, data := some data }) := by
  constructor
  · intro K response hK hfail hok h200
    have h := loop_success script url apiName data N d response h200 K 0 w
      (by push_cast; omega) hfail hok
    exact ⟨h.1, h.2.1⟩
  · intro hfail
    have h := loop_failure script url apiName data N d (N.toNat - 1) 0 w
      (by push_cast; omega) (fun i _ => hfail _)
    have e : N.toNat - 1 + 1 = N.toNat := by omega
    rw [e] at h
    exact ⟨h.1, h.2.1⟩

/-- Instance of C2: four attempts allowed.  A network error twice and then status 200:
three requests, the response is returned.  Status 500 every time: four requests, then the
error `Max retries exceeded`. -/
theorem makeApiCallWithRetry_attempts_witness :
    ((makeApiCallWithRetry
        (mocked (fun i _ => if i < 2 then .error (.str "Network Error")
          else .ok { status := some 200, data := "success" }))
        "https://bc" "/api/certificates" [] 4 1000 {}).1
      = .ok (some { status := some 200, data := "success" }) ∧
    requests (makeApiCallWithRetry
        (mocked (fun i _ => if i < 2 then .error (.str "Network Error")
          else .ok { status := some 200, data := "success" }))
        "https://bc" "/api/certificates" [] 4 1000 {}).2.trace
      = requests [] ++ List.replicate (2 + 1)
          { method := "PUT", url := "https://bc" ++ "/api/certificates", data := some [] }) ∧
    ((makeApiCallWithRetry
        (mocked (fun _ _ => .ok { status := some 500, data := "Internal Server Error" }))
        "https://bc" "/api/certificates" [] 4 1000 {}).1
      = .error (.error "Max retries exceededError: [object Object]") ∧
    requests (makeApiCallWithRetry
        (mocked (fun _ _ => .ok { status := some 500, data := "Internal Server Error" }))
        "https://bc" "/api/certificates" [] 4 1000 {}).2.trace
      = List.replicate 4
          { method := "PUT", url := "https://bc/api/certificates", data := some [] }) := by
  have h := (makeApiCallWithRetry_attempts
    (fun i _ => if i < 2 then .error (.str "Network Error")
      else .ok { status := some 200, data := "success" })
    "https://bc" "/api/certificates" [] 4 1000 (by decide) {}).1 2
    { status := some 200, data := "success" } (by decide)
    (by intro i hi; simp [requests, hi, attemptFailed]) (by simp [requests]) rfl
  have h' := (makeApiCallWithRetry_attempts
    (fun _ _ => .ok { status := some 500, data := "Internal Server Error" })
    "https://bc" "/api/certificates" [] 4 1000 (by decide) {}).2
    (by intro i; simp [attemptFailed])
  refine ⟨h, ?_, ?_⟩
  · rw [h'.1]; decide
  · rw [h'.2]; decide

/-- C5: with `maxRetries = N ≥ 1` and base delay `d`, the delay awaited after the `i`-th
failed attempt (`1 ≤ i < N`) is `2^i * d`: after `K < N` failures followed by a success the
awaited delays are `2d, 4d, ..., 2^K d`, and when every attempt fails they are
`2d, 4d, ..., 2^(N-1) d`, with no delay after the last failed attempt. -/
theorem makeApiCallWithRetry_delays (script : Nat → Request → Except Thrown HttpObj)
    (url apiName : String) (data : List Doc) (N d : Int) (hN : 1 ≤ N) (w : World) :
    (∀ (K : Nat) (response : HttpObj), (K : Int) < N →
      (∀ i, i < K → attemptFailed (script ((requests w.trace).length + i)
        { method := "PUT", url := url ++ apiName, data := some data }) = true) →
      script ((requests w.trace).length + K)
        { method := "PUT", url := url ++ apiName, data := some data } = .ok response →
      response.status = some 200 →
      timeouts (makeApiCallWithRetry (mocked script) url apiName data N d w).2.trace
        = timeouts w.trace ++ (List.range K).map (fun (i : Nat) => 2 ^ (i + 1) * d)) ∧
    ((∀ i, attemptFailed (script i
        { method := "PUT", url := url ++ apiName, data := some data }) = true) →
      timeouts (makeApiCallWithRetry (mocked script) url apiName data N d w).2.trace
        = timeouts w.trace
            ++ (List.range (N.toNat - 1)).map (fun (i : Nat) => 2 ^ (i + 1) * d)) := by
  constructor
  · intro K response hK hfail hok h200
    have h := loop_success script url apiName data N d response h200 K 0 w
      (by push_cast; omega) hfail hok
    simpa using h.2.2
  · intro hfail
    have h := loop_failure script url apiName data N d (N.toNat - 1) 0 w
      (by push_cast; omega) (fun i _ => hfail _)
    simpa using h.2.2

/-- Instance of C5: four attempts allowed, base delay 1000.  When all fail with status
500 the delays are 2000, 4000 and 8000; after two network errors and a success they are
2000 and 4000. -/
theorem makeApiCallWithRetry_delays_witness :
    timeouts (makeApiCallWithRetry
        (mocked (fun _ _ => .ok { status := some 500, data := "Internal Server Error" }))
        "https://bc" "/api/certificates" [] 4 1000 {}).2.trace
      = [2000, 4000, 8000] ∧
    timeouts (makeApiCallWithRetry
        (mocked (fun i _ => if i < 2 then .error (.str "Network Error")
          else .ok { status := some 200, data := "success" }))
        "https://bc" "/api/certificates" [] 4 1000 {}).2.trace
      = [2000, 4000] := by
  have h := (makeApiCallWithRetry_delays
    (fun _ _ => .ok { status := some 500, data := "Internal Server Error" })
    "https://bc" "/api/certificates" [] 4 1000 (by decide) {}).2
    (by intro i; simp [attemptFailed])
  have h' := (makeApiCallWithRetry_delays
    (fun i _ => if i < 2 then .error (.str "Network Error")
      else .ok { status := some 200, data := "success" })
    "https://bc" "/api/certificates" [] 4 1000 (by decide) {}).1 2
    { status := some 200, data := "success" } (by decide)
    (by intro i hi; simp [requests, hi, attemptFailed]) (by simp [requests]) rfl
  exact ⟨by simpa [timeouts, List.range_succ] using h,
    by simpa [timeouts, List.range_succ] using h'⟩

end Reconciliation

theorem sinkCalls_append (l₁ l₂ : List Event) :
    sinkCalls (l₁ ++ l₂) = sinkCalls l₁ ++ sinkCalls l₂ := by
  induction l₁ with
  | nil => rfl
  | cons e es ih => cases e <;> simp [sinkCalls, ih]

namespace AppInsights

/-- C10: while `init` has not been called (`appInsightsClient` is still `undefined`, as in
a fresh module), `trackEvent` and `trackRequest` return normally and leave the world as it
is, whatever their arguments, so the sink is not called; `init` defines the client, the
tracking functions never change the module state, and with the client defined every call
of `trackEvent` makes exactly one `trackEvent` call on the sink and every call of
`trackRequest` exactly one `trackRequest` call. -/
theorem tracking_before_and_after_init (env : Env) (name url key : String)
    (properties : Option (List (String × String))) (response : Outcome) (context : Context)
    (w : World) :
    ({} : World).insights.appInsightsClient = false ∧
    (w.insights.appInsightsClient = false →
      trackEvent env name properties w = (.ok (), w) ∧
      trackRequest env name url response w = (.ok (), w)) ∧
    (init key context w).insights.appInsightsClient = true ∧
    (trackEvent env name properties w).2.insights = w.insights ∧
    (trackRequest env name url response w).2.insights = w.insights ∧
    (w.insights.appInsightsClient = true →
      sinkCalls (trackEvent env name properties w).2.trace
        = sinkCalls w.trace ++ [.sinkTrackEvent
            { name := name, properties := properties,
              tagOverrides := w.insights.operationIdOverride }] ∧
      sinkCalls (trackRequest env name url response w).2.trace
        = sinkCalls w.trace ++ [.sinkTrackRequest
            { name := name, url := url, duration := response.duration,
              resultCode := response.status,
              success := decide (response.status = some 200),
              tagOverrides := w.insights.operationIdOverride }]) := by
  refine ⟨rfl, ?_, ?_, ?_, ?_, ?_⟩
  · intro h
    simp [trackEvent, trackRequest, h]
  · simp only [init, logFn, World.emit]
    split <;> rfl
  · simp only [trackEvent, logFn, World.emit]
    split_ifs <;> rfl
  · simp only [trackRequest, logFn, World.emit]
    split_ifs <;> rfl
  · intro h
    constructor
    · simp only [trackEvent, logFn, World.emit, h, if_true]
      split_ifs <;> simp [sinkCalls_append, sinkCalls]
    · simp only [trackRequest, logFn, World.emit, h, if_true]
      split_ifs <;> simp [sinkCalls_append, sinkCalls]

/-- Instance of C10: a request tracked in a fresh module, and one tracked after `init`. -/
theorem tracking_before_and_after_init_witness :
    trackRequest { adapter := fun _ _ => .ok { status := some 200 } } "POST /test" "/api/test"
        { duration := some 234, status := some 200 } {}
      = (.ok (), {}) ∧
    sinkCalls (trackRequest { adapter := fun _ _ => .ok { status := some 200 } } "POST /test"
        "/api/test" { duration := some 234, status := some 200 }
        (init "instrumentationKey123" { operationId := some "opId" } {})).2.trace
      = [.sinkTrackRequest
          { name := "POST /test", url := "/api/test", duration := some 234,
            resultCode := some 200, success := true,
            tagOverrides := [("ai.operation.id", some "opId")] }] := by
  have h0 := tracking_before_and_after_init { adapter := fun _ _ => .ok { status := some 200 } }
    "POST /test" "/api/test" "instrumentationKey123" none
    { duration := some 234, status := some 200 } { operationId := some "opId" } {}
  have h1 := tracking_before_and_after_init { adapter := fun _ _ => .ok { status := some 200 } }
    "POST /test" "/api/test" "instrumentationKey123" none
    { duration := some 234, status := some 200 } { operationId := some "opId" }
    (init "instrumentationKey123" { operationId := some "opId" } {})
  refine ⟨(h0.2.1 rfl).2, ?_⟩
  have h2 := (h1.2.2.2.2.2 h0.2.2.1).2
  rw [h2]
  decide

end AppInsights

namespace AxiosInterceptors

/-- C3, the code at a failing input: the handlers are installed by `init`, the clock reads
1000 and then 3000, and the adapter rejects the request with a network error.  The
`rejected` handler attaches the duration and returns the error object, so the promise of
`axios.post` is resolved with it; `httpReq` then resolves, and `retry`, given four retries,
stops after this single request. -/
theorem rejected_handler_resolves :
    (Axios.request
        { adapter := fun _ _ => .error { status := none, text := "Error: Network Error" },
          perfNow := fun k => if k = 0 then 1000 else 3000 }
        { method := "POST", url := "http://localhost:9000/v1/jobs/landings" } (init {})).1
      = .ok { status := none, text := "Error: Network Error",
              config := some { meta := some { ts := some 1000 } }, duration := some 2000 } ∧
    (Landing.retry
        (Landing.httpReq
          { adapter := fun _ _ => .error { status := none, text := "Error: Network Error" },
            perfNow := fun k => if k = 0 then 1000 else 3000 }
          (Axios.request
            { adapter := fun _ _ => .error { status := none, text := "Error: Network Error" },
              perfNow := fun k => if k = 0 then 1000 else 3000 })
          {} 4)
        4 (Landing.calcDelay 300000 4) (init {})).1 = .ok () ∧
    requests (Landing.retry
        (Landing.httpReq
          { adapter := fun _ _ => .error { status := none, text := "Error: Network Error" },
            perfNow := fun k => if k = 0 then 1000 else 3000 }
          (Axios.request
            { adapter := fun _ _ => .error { status := none, text := "Error: Network Error" },
              perfNow := fun k => if k = 0 then 1000 else 3000 })
          {} 4)
        4 (Landing.calcDelay 300000 4) (init {})).2.trace
      = [{ method := "POST", url := "http://localhost:9000/v1/jobs/landings" }] := by
  have hp : parseInt (3000 - 1000) = 2000 := by
    norm_num [parseInt, parseIntOfNonneg, Rat.floor]
  refine ⟨?_, ?_⟩
  · simp [Axios.request, Axios.runRequestInterceptors, Axios.runResponseInterceptors,
      Axios.readClock, init, requestInterceptor, responseInterceptorOnError,
      responseInterceptor, World.emit, requests, hp]
  have h : Landing.httpReq
      { adapter := fun _ _ => .error { status := none, text := "Error: Network Error" },
        perfNow := fun k => if k = 0 then 1000 else 3000 }
      (Axios.request
        { adapter := fun _ _ => .error { status := none, text := "Error: Network Error" },
          perfNow := fun k => if k = 0 then 1000 else 3000 })
      {} 4 4 (init {}) = (.ok (), _) := Prod.ext (by decide) rfl
  rw [Landing.retry_of_ok _ _ _ _ _ _ h]
  exact ⟨rfl, by decide⟩

end AxiosInterceptors

namespace AppInsights

/-- With a sink that does not throw, `trackEvent` returns normally; it makes no request. -/
theorem trackEvent_ok (env : Env) (hsink : ∀ d, env.sinkEventThrows d = false) (name : String)
    (properties : Option (List (String × String))) (w : World) :
    ∃ w', trackEvent env name properties w = (.ok (), w') ∧
      requests w'.trace = requests w.trace := by
  simp only [trackEvent, logFn, World.emit, hsink, Bool.false_eq_true, if_false]
  split_ifs <;> exact ⟨_, rfl, by simp [requests_append, requests]⟩

/-- With a sink that does not throw, `trackRequest` returns normally; it makes no request. -/
theorem trackRequest_ok (env : Env) (hsink : ∀ d, env.sinkRequestThrows d = false)
    (name url : String) (response : Outcome) (w : World) :
    ∃ w', trackRequest env name url response w = (.ok (), w') ∧
      requests w'.trace = requests w.trace := by
  simp only [trackRequest, logFn, World.emit, hsink, Bool.false_eq_true, if_false]
  split_ifs <;> exact ⟨_, rfl, by simp [requests_append, requests]⟩

end AppInsights

/-- An attempt that did not fail was answered with status 200. -/
theorem ok_of_not_attemptFailed (x : Except Thrown HttpObj) (h : attemptFailed x = false) :
    ∃ response, x = .ok response ∧ response.status = some 200 := by
  cases x with
  | error e => simp [attemptFailed] at h
  | ok r => exact ⟨r, rfl, by simpa [attemptFailed] using h⟩

namespace Reconciliation

/-- The loop entered with `retryCount ≥ maxRetries` returns `undefined` at once. -/
theorem loop_of_done (axios : HttpClient) (url apiName : String) (data : List Doc)
    (N d : Int) (c : Nat) (w : World) (hc : ¬ (c : Int) < N) :
    makeApiCallLoop axios url apiName data N d c w = (.ok none, w) := by
  rw [makeApiCallLoop]
  simp [hc]

/-- Whatever the outcomes, every request of one run of the loop carries the same batch. -/
theorem loop_requests (script : Nat → Request → Except Thrown HttpObj)
    (url apiName : String) (data : List Doc) (N d : Int) :
    ∀ (n c : Nat) (w : World), (N - (c : Int)).toNat = n →
      ∃ k, requests (makeApiCallLoop (mocked script) url apiName data N d c w).2.trace
        = requests w.trace ++ List.replicate k
            { method := "PUT", url := url ++ apiName, data := some data } := by
  intro n
  induction n with
  | zero =>
    intro c w hn
    rw [loop_of_done _ _ _ _ _ _ _ _ (by omega)]
    exact ⟨0, by simp⟩
  | succ n ih =>
    intro c w hn
    have hc : (c : Int) < N := by omega
    cases hf : attemptFailed (script (requests w.trace).length
        { method := "PUT", url := url ++ apiName, data := some data }) with
    | false =>
      obtain ⟨r, hr, h200⟩ := ok_of_not_attemptFailed _ hf
      obtain ⟨w', h1, h2, _⟩ := loop_of_success script url apiName data N d c w r hc hr h200
      rw [h1]
      exact ⟨1, by simpa using h2⟩
    | true =>
      by_cases hlast : (c : Int) + 1 ≥ N
      · obtain ⟨w', h1, h2, _⟩ :=
          loop_of_last_failure script url apiName data N d c w hc hlast hf
        rw [h1]
        exact ⟨1, by simpa using h2⟩
      · obtain ⟨w', h1, h2, _⟩ :=
          loop_of_failure script url apiName data N d c w (by omega) hf
        obtain ⟨k, hk⟩ := ih (c + 1) w' (by push_cast; omega)
        rw [h1, hk, h2]
        exact ⟨k + 1, by simp [List.replicate_succ]⟩

/-- When the loop over `b :: l` ends normally, the first batch has been delivered, and the
loop over any `b :: l'` goes on with `l'` from the world the delivery left. -/
theorem sendBatches_head_ok (env : Env) (script : Nat → Request → Except Thrown HttpObj)
    (config : Config) (b : List Doc) (l : List (List Doc)) (w : World)
    (h : (sendBatches env (mocked script) config (b :: l) w).1 = .ok ()) :
    ∃ w3 k, (∀ l', sendBatches env (mocked script) config (b :: l') w
        = sendBatches env (mocked script) config l' w3) ∧
      requests w3.trace = requests w.trace ++ List.replicate k
        { method := "PUT", url := config.businessContinuityUrl ++ config.apiName,
          data := some b } := by
  obtain ⟨k, hk⟩ := loop_requests script config.businessContinuityUrl config.apiName b
    config.retries config.retryDelay _ 0 w rfl
  rcases h1 : makeApiCallWithRetry (mocked script) config.businessContinuityUrl config.apiName b
      config.retries config.retryDelay w with ⟨r, w1⟩
  have hk' : requests w1.trace = requests w.trace ++ List.replicate k
      { method := "PUT", url := config.businessContinuityUrl ++ config.apiName,
        data := some b } := by
    have : makeApiCallLoop (mocked script) config.businessContinuityUrl config.apiName b
        config.retries config.retryDelay 0 w = (r, w1) := h1
    rw [this] at hk
    exact hk
  cases r with
  | error e => simp [sendBatches, h1] at h
  | ok o =>
    cases o with
    | none => simp [sendBatches, h1] at h
    | some response =>
      rcases h2 : AppInsights.trackRequest env ("PUT " ++ config.apiName)
          config.businessContinuityUrl response.outcome
          (w1.emit (.log "Batch Data sent to BC")) with ⟨r2, w3⟩
      have hreq : requests w3.trace = requests w1.trace := by
        have := congrArg (fun x => requests x.2.trace) h2
        simp only at this
        rw [← this]
        simp only [AppInsights.trackRequest, AppInsights.logFn, World.emit]
        split_ifs <;> simp [requests_append, requests]
      cases r2 with
      | error e => simp [sendBatches, h1, h2] at h
      | ok u =>
        refine ⟨w3, k, ?_, by rw [hreq, hk']⟩
        intro l'
        simp [sendBatches, h1, h2]

/-- The loop over the batches stops at the first batch whose attempts all fail: the
batches before it are delivered as they would be on their own, the failing batch is tried
`N` times, and nothing is sent after that. -/
theorem sendBatches_abort (env : Env) (script : Nat → Request → Except Thrown HttpObj)
    (config : Config) (B : List Doc) (post : List (List Doc)) (hN : 1 ≤ config.retries)
    (hB : ∀ i, attemptFailed (script i
      { method := "PUT", url := config.businessContinuityUrl ++ config.apiName,
        data := some B }) = true) :
    ∀ (pre : List (List Doc)) (w : World),
      (sendBatches env (mocked script) config pre w).1 = .ok () →
      ∃ (counts : List Nat) (i : Nat) (w' : World), counts.length = pre.length ∧
        sendBatches env (mocked script) config (pre ++ B :: post) w
          = (.error (.error ("Max retries exceeded" ++ (caught (script i
              { method := "PUT", url := config.businessContinuityUrl ++ config.apiName,
                data := some B })).toStr)), w') ∧
        requests w'.trace = requests w.trace
          ++ (List.zipWith List.replicate counts (pre.map (fun b =>
                ({ method := "PUT", url := config.businessContinuityUrl ++ config.apiName,
                   data := some b } : Request)))).flatten
          ++ List.replicate config.retries.toNat
              { method := "PUT", url := config.businessContinuityUrl ++ config.apiName,
                data := some B } := by
  intro pre
  induction pre with
  | nil =>
    intro w _
    have h := loop_failure script config.businessContinuityUrl config.apiName B config.retries
      config.retryDelay (config.retries.toNat - 1) 0 w (by push_cast; omega) (fun i _ => hB _)
    have e : config.retries.toNat - 1 + 1 = config.retries.toNat := by omega
    rw [e] at h
    rcases h1 : makeApiCallWithRetry (mocked script) config.businessContinuityUrl
        config.apiName B config.retries config.retryDelay w with ⟨r, w1⟩
    have h1' : makeApiCallLoop (mocked script) config.businessContinuityUrl config.apiName B
        config.retries config.retryDelay 0 w = (r, w1) := h1
    rw [h1'] at h
    obtain ⟨hr, hreq, _⟩ := h
    simp only at hr hreq
    subst hr
    refine ⟨[], (requests w.trace).length + (config.retries.toNat - 1), w1, rfl, ?_,
      by simpa using hreq⟩
    simp [sendBatches, h1]
  | cons b pre ih =>
    intro w hok
    obtain ⟨w3, k, hstep, hreq⟩ := sendBatches_head_ok env script config b pre w hok
    have hok' : (sendBatches env (mocked script) config pre w3).1 = .ok () := by
      rw [← hstep pre]; exact hok
    obtain ⟨counts, i, w', hlen, hrun, hreq'⟩ := ih w3 hok'
    refine ⟨k :: counts, i, w', by simp [hlen], ?_, ?_⟩
    · rw [List.cons_append, hstep (pre ++ B :: post)]
      exact hrun
    · rw [hreq', hreq]
      simp

/-- With a sink that does not throw, logging and tracking a tag returns normally and
makes no request. -/
theorem logAndTrack_ok (env : Env) (hsink : ∀ d, env.sinkEventThrows d = false) (tag : String)
    (w : World) :
    ∃ w', logAndTrack env tag w = (.ok (), w') ∧ requests w'.trace = requests w.trace := by
  obtain ⟨w', h1, h2⟩ := AppInsights.trackEvent_ok env hsink tag none (w.emit (.log tag))
  exact ⟨w', h1, by rw [h2]; simp [World.emit, requests_append, requests]⟩

/-- Initialising the telemetry module makes no request. -/
theorem init_requests (key : String) (context : Context) (w : World) :
    requests (AppInsights.init key context w).trace = requests w.trace := by
  simp only [AppInsights.init, AppInsights.logFn, World.emit]
  split_ifs <;> simp [requests_append, requests]

/-- When the store answers, the batches are computed and the sink does not throw, the
`try` block reaches the loop over the batches without a request, and an error thrown by
the loop leaves the block as it is. -/
theorem tryBlock_of_sendBatches_error (env : Env) (axios : HttpClient) (config : Config)
    (w : World) (documents : List Doc) (batches : List (List Doc))
    (hconn : env.connect = .ok ()) (hdocs : env.documents = .ok documents)
    (hbatches : batchArray documents config.batchSize = .ok batches)
    (hsink : ∀ d, env.sinkEventThrows d = false) :
    ∃ w4, requests w4.trace = requests w.trace ∧
      ∀ e w5, sendBatches env axios config batches w4 = (.error e, w5) →
        tryBlock env axios config w = (.error e, w5) := by
  obtain ⟨w1, h1, r1⟩ := logAndTrack_ok env hsink
    ("[SCHEDULED-JOBS][BC-RECONCILIATION][DB_NAME][" ++ config.dbName ++ "]") w
  obtain ⟨w2, h2, r2⟩ := logAndTrack_ok env hsink
    "[SCHEDULED-JOBS][BC-RECONCILIATION][DOCUMENT-QUERY]" w1
  obtain ⟨w3, h3, r3⟩ := logAndTrack_ok env hsink
    ("[SCHEDULED-JOBS][BC-RECONCILIATION][DOCUMENT-COUNT][" ++ toString documents.length ++ "]") w2
  obtain ⟨w4, h4, r4⟩ := logAndTrack_ok env hsink
    ("[SCHEDULED-JOBS][BC-RECONCILIATION][BATCH-SIZE][" ++ toString config.batchSize ++ "]") w3
  refine ⟨w4, by rw [r4, r3, r2, r1], ?_⟩
  intro e w5 hsend
  simp only [tryBlock, h1, hconn, h2, hdocs, h3, hbatches, h4, hsend]

/-- With a sink that does not throw, the `catch` block rethrows the error it caught and
makes no request. -/
theorem catchBlock_rethrows (env : Env) (config : Config) (error : Thrown) (w : World)
    (hsinkE : ∀ d, env.sinkEventThrows d = false)
    (hsinkR : ∀ d, env.sinkRequestThrows d = false) :
    ∃ w', catchBlock env config error w = (.error error, w') ∧
      requests w'.trace = requests w.trace := by
  obtain ⟨w2, h2, r2⟩ := AppInsights.trackRequest_ok env hsinkR ("PUT " ++ config.apiName)
    config.businessContinuityUrl error.outcome (w.emit (.logError "Failed to call API for batch:"))
  obtain ⟨w3, h3, r3⟩ := AppInsights.trackEvent_ok env hsinkE
    "[SCHEDULED-JOBS][BC-RECONCILIATION][FAILED]" none w2
  refine ⟨w3.emit (.setRes 500 ("Error: " ++ message error)), ?_, ?_⟩
  · simp only [catchBlock, h2, h3]
  · rw [show requests (w3.emit (.setRes 500 ("Error: " ++ message error))).trace
        = requests w3.trace by simp [World.emit, requests_append, requests], r3, r2]
    simp [World.emit, requests_append, requests]

/-- C9: the batches are sent in input order and the run aborts on the first batch that
exhausts its retries.  When the batches before `B` are delivered and every attempt for `B`
fails, the PUT requests of the run are those for the batches before `B`, in order, followed
by the `N` attempts for `B`, and nothing else: no later batch is ever sent.  `func` rejects
with the error `makeApiCallWithRetry` threw for `B`.  (The store answers, the telemetry sink
does not throw, and `N ≥ 1`.) -/
theorem func_aborts_on_exhausted_batch (env : Env)
    (script : Nat → Request → Except Thrown HttpObj) (config : Config) (context : Context)
    (isPastDue : Bool) (overrideConfig : Override) (w : World) (documents : List Doc)
    (pre : List (List Doc)) (B : List Doc) (post : List (List Doc))
    (hconn : env.connect = .ok ()) (hdocs : env.documents = .ok documents)
    (hbatches : batchArray documents (merge config overrideConfig).batchSize
      = .ok (pre ++ B :: post))
    (hN : 1 ≤ (merge config overrideConfig).retries)
    (hsinkE : ∀ d, env.sinkEventThrows d = false)
    (hsinkR : ∀ d, env.sinkRequestThrows d = false)
    (hpre : ∀ w', requests w'.trace = requests w.trace →
      (sendBatches env (mocked script) (merge config overrideConfig) pre w').1 = .ok ())
    (hB : ∀ i, attemptFailed (script i
      { method := "PUT",
        url := (merge config overrideConfig).businessContinuityUrl
          ++ (merge config overrideConfig).apiName,
        data := some B }) = true) :
    ∃ (counts : List Nat) (i : Nat), counts.length = pre.length ∧
      (func env (mocked script) config context isPastDue overrideConfig w).1
        = .error (.error ("Max retries exceeded" ++ (caught (script i
            { method := "PUT",
              url := (merge config overrideConfig).businessContinuityUrl
                ++ (merge config overrideConfig).apiName,
              data := some B })).toStr)) ∧
      requests (func env (mocked script) config context isPastDue overrideConfig w).2.trace
        = requests w.trace
          ++ (List.zipWith List.replicate counts (pre.map (fun b =>
                ({ method := "PUT",
                   url := (merge config overrideConfig).businessContinuityUrl
                     ++ (merge config overrideConfig).apiName,
                   data := some b } : Request)))).flatten
          ++ List.replicate (merge config overrideConfig).retries.toNat
              { method := "PUT",
                url := (merge config overrideConfig).businessContinuityUrl
                  ++ (merge config overrideConfig).apiName,
                data := some B } := by
  obtain ⟨w1, h1, r1⟩ := logAndTrack_ok env hsinkE
    "[SCHEDULED-JOBS][BC-RECONCILIATION][STARTED]" w
  -- the world in which the `try` statement is entered
  obtain ⟨w4, hw4, r4⟩ : ∃ w4, w4 = AxiosInterceptors.init
      (match (merge config overrideConfig).instrumentationKey with
        | some key => if key = "" then
            (if isPastDue then
              w1.emit (.log "[SCHEDULED-JOBS][BC-RECONCILIATION][RUNNING-LATE]") else w1)
          else AppInsights.init key context
            (if isPastDue then
              w1.emit (.log "[SCHEDULED-JOBS][BC-RECONCILIATION][RUNNING-LATE]") else w1)
        | none => (if isPastDue then
            w1.emit (.log "[SCHEDULED-JOBS][BC-RECONCILIATION][RUNNING-LATE]") else w1))
      ∧ requests w4.trace = requests w.trace := by
    refine ⟨_, rfl, ?_⟩
    simp only [AxiosInterceptors.init]
    rw [← r1]
    split <;> split_ifs <;> simp [init_requests, World.emit, requests_append, requests]
  obtain ⟨w5, r5, htry⟩ := tryBlock_of_sendBatches_error env (mocked script)
    (merge config overrideConfig) w4 documents (pre ++ B :: post) hconn hdocs hbatches hsinkE
  obtain ⟨counts, i, w6, hlen, hrun, r6⟩ := sendBatches_abort env script
    (merge config overrideConfig) B post hN hB pre w5 (hpre w5 (by rw [r5, r4]))
  obtain ⟨w7, hcatch, r7⟩ := catchBlock_rethrows env (merge config overrideConfig)
    (.error ("Max retries exceeded" ++ (caught (script i
      { method := "PUT",
        url := (merge config overrideConfig).businessContinuityUrl
          ++ (merge config overrideConfig).apiName,
        data := some B })).toStr)) w6 hsinkE hsinkR
  have hfunc : func env (mocked script) config context isPastDue overrideConfig w
      = (.error (.error ("Max retries exceeded" ++ (caught (script i
          { method := "PUT",
            url := (merge config overrideConfig).businessContinuityUrl
              ++ (merge config overrideConfig).apiName,
            data := some B })).toStr)), w7.emit .dbClose) := by
    simp only [func, h1]
    rw [← hw4, htry _ _ hrun]
    simp only [hcatch]
  refine ⟨counts, i, hlen, by rw [hfunc], ?_⟩
  rw [hfunc]
  simp only [World.emit, requests_append, requests, List.append_nil]
  rw [r7, r6, r5, r4]

/-- Instance of C9: five items in batches of two; the first batch is delivered, the second
one never is, and the third one is never sent. -/
theorem func_aborts_on_exhausted_batch_witness :
    ∃ (counts : List Nat) (i : Nat), counts.length = [sampleDocuments.take 2].length ∧
      (func { adapter := fun _ _ => .ok { status := some 200 }, documents := .ok sampleDocuments }
          (mocked sampleEndpoint) {} {} true { batchSize := some 2 } {}).1
        = .error (.error ("Max retries exceeded" ++ (caught (sampleEndpoint i
            { method := "PUT",
              url := (merge {} { batchSize := some 2 }).businessContinuityUrl
                ++ (merge {} { batchSize := some 2 }).apiName,
              data := some ((sampleDocuments.drop 2).take 2) })).toStr)) ∧
      requests (func
          { adapter := fun _ _ => .ok { status := some 200 }, documents := .ok sampleDocuments }
          (mocked sampleEndpoint) {} {} true { batchSize := some 2 } {}).2.trace
        = requests ({} : World).trace
          ++ (List.zipWith List.replicate counts ([sampleDocuments.take 2].map (fun b =>
                ({ method := "PUT",
                   url := (merge {} { batchSize := some 2 }).businessContinuityUrl
                     ++ (merge {} { batchSize := some 2 }).apiName,
                   data := some b } : Request)))).flatten
          ++ List.replicate (merge {} { batchSize := some 2 }).retries.toNat
              { method := "PUT",
                url := (merge {} { batchSize := some 2 }).businessContinuityUrl
                  ++ (merge {} { batchSize := some 2 }).apiName,
                data := some ((sampleDocuments.drop 2).take 2) } :=
  func_aborts_on_exhausted_batch
    { adapter := fun _ _ => .ok { status := some 200 }, documents := .ok sampleDocuments }
    sampleEndpoint {} {} true { batchSize := some 2 } {} sampleDocuments
    [sampleDocuments.take 2] ((sampleDocuments.drop 2).take 2) [sampleDocuments.drop 4]
    rfl rfl (by decide) (by decide) (fun _ => rfl) (fun _ => rfl)
    (by
      intro w' _
      obtain ⟨w1, h1, _, _⟩ := loop_of_success sampleEndpoint
        (merge {} { batchSize := some 2 }).businessContinuityUrl
        (merge {} { batchSize := some 2 }).apiName (sampleDocuments.take 2)
        (merge {} { batchSize := some 2 }).retries (merge {} { batchSize := some 2 }).retryDelay
        0 w' { status := some 200, data := "success" } (by decide) rfl rfl
      obtain ⟨w3, h3, _⟩ := AppInsights.trackRequest_ok
        { adapter := fun _ _ => .ok { status := some 200 }, documents := .ok sampleDocuments }
        (fun _ => rfl) ("PUT " ++ (merge {} { batchSize := some 2 }).apiName)
        (merge {} { batchSize := some 2 }).businessContinuityUrl
        (HttpObj.outcome { status := some 200, data := "success" })
        (w1.emit (.log "Batch Data sent to BC"))
      simp only [sendBatches, makeApiCallWithRetry, h1, h3])
    (fun _ => rfl)

end Reconciliation

namespace AppInsights

/-- C11: after `init(key, context)`, for every name, url and outcome object, `trackRequest`
hands the sink exactly one record, with `name` and `url` unchanged, `duration` and
`resultCode` read off the outcome, `success` true exactly when the status is 200 (false for
any other status and for an absent one), and `tagOverrides` mapping `ai.operation.id` to
`context.operationId`. -/
theorem trackRequest_record (env : Env) (key name url : String) (context : Context)
    (outcome : Outcome) (w : World) :
    sinkCalls (trackRequest env name url outcome (init key context w)).2.trace
      = sinkCalls (init key context w).trace ++ [.sinkTrackRequest
          { name := name, url := url, duration := outcome.duration,
            resultCode := outcome.status,
            success := decide (outcome.status = some 200),
            tagOverrides := [("ai.operation.id", context.operationId)] }] ∧
    (decide (outcome.status = some 200) = true ↔ outcome.status = some 200) ∧
    (outcome.status = none → decide (outcome.status = some 200) = false) := by
  refine ⟨?_, by simp, fun h => by simp [h]⟩
  have hc : (init key context w).insights.appInsightsClient = true := by
    simp only [init, logFn, World.emit]
    split <;> rfl
  have ho : (init key context w).insights.operationIdOverride
      = [("ai.operation.id", context.operationId)] := by
    simp only [init, logFn, World.emit]
    split <;> rfl
  simp only [trackRequest, logFn, World.emit, hc, if_true, ho]
  split_ifs <;> simp [sinkCalls_append, sinkCalls]

/-- C12, counterexample: the client is initialised and the sink throws on every request
record.  `trackRequest` throws too, and in `httpReq` an HTTP call answered with status 200
ends as a rejected attempt. -/
theorem sink_exception_propagates :
    (trackRequest { adapter := fun _ _ => .ok { status := some 200 },
                    sinkRequestThrows := fun _ => true }
        "POST /test" "/api/test" { duration := some 234, status := some 200 }
        (init "instrumentationKey123" { operationId := some "opId" } {})).1
      = .error .sinkFailure ∧
    (Landing.httpReq { adapter := fun _ _ => .ok { status := some 200 },
                       sinkRequestThrows := fun _ => true }
        (mocked (fun _ _ => .ok { status := some 200, data := "success" })) {} 4 4
        (init "instrumentationKey123" { operationId := some "opId" } {})).1
      = .error .sinkFailure := by
  constructor <;> decide

/-- C12, as amended: nothing catches an exception of the sink.  With the client
initialised, when the sink throws on the record, `trackEvent` / `trackRequest` throw that
exception after the sink call and without writing their log line; and when the sink throws
on every request record, an attempt of `httpReq` whose HTTP call succeeded is rejected (so
`retry` treats it as failed). -/
theorem sink_exception_not_caught (env : Env) (name url : String)
    (properties : Option (List (String × String))) (response : Outcome) (w : World)
    (hclient : w.insights.appInsightsClient = true) :
    (env.sinkEventThrows
        { name := name, properties := properties,
          tagOverrides := w.insights.operationIdOverride } = true →
      trackEvent env name properties w
        = (.error .sinkFailure, w.emit (.sinkTrackEvent
            { name := name, properties := properties,
              tagOverrides := w.insights.operationIdOverride }))) ∧
    (env.sinkRequestThrows
        { name := name, url := url, duration := response.duration,
          resultCode := response.status, success := decide (response.status = some 200),
          tagOverrides := w.insights.operationIdOverride } = true →
      trackRequest env name url response w
        = (.error .sinkFailure, w.emit (.sinkTrackRequest
            { name := name, url := url, duration := response.duration,
              resultCode := response.status, success := decide (response.status = some 200),
              tagOverrides := w.insights.operationIdOverride }))) ∧
    ((∀ d, env.sinkRequestThrows d = true) →
      ∀ (script : Nat → Request → Except Thrown HttpObj) (config : Landing.Config)
        (totalRetries retriesRemaining : Int) (res : HttpObj),
        script (requests w.trace).length { method := "POST", url := config.url } = .ok res →
        (Landing.httpReq env (mocked script) config totalRetries retriesRemaining w).1
          = .error .sinkFailure) := by
  refine ⟨?_, ?_, ?_⟩
  · intro h
    simp [trackEvent, hclient, h]
  · intro h
    simp [trackRequest, hclient, h]
  · intro h script config totalRetries retriesRemaining res hs
    have hlen : (requests (w.trace ++ [Event.log
        ("[SCHEDULED-JOBS][LANDING-AND-REPORTING][MAKING-HTTP-CALL][ATTEMPT-"
          ++ toString (totalRetries - retriesRemaining + 1) ++ "]")])).length
        = (requests w.trace).length := by
      simp [requests_append, requests]
    simp [Landing.httpReq, mocked, World.emit, hlen, hs, trackRequest, hclient, h]

/-- Instance of the amended C12: the request record of the tests, a sink that throws. -/
theorem sink_exception_not_caught_witness :
    trackRequest { adapter := fun _ _ => .ok { status := some 200 },
                   sinkRequestThrows := fun _ => true }
        "POST /test" "/api/test" { duration := some 234, status := some 200 }
        (init "instrumentationKey123" { operationId := some "opId" } {})
      = (.error .sinkFailure,
          (init "instrumentationKey123" { operationId := some "opId" } {}).emit
            (.sinkTrackRequest
              { name := "POST /test", url := "/api/test", duration := some 234,
                resultCode := some 200, success := true,
                tagOverrides := [("ai.operation.id", some "opId")] })) :=
  (sink_exception_not_caught
    { adapter := fun _ _ => .ok { status := some 200 }, sinkRequestThrows := fun _ => true }
    "POST /test" "/api/test" none { duration := some 234, status := some 200 }
    (init "instrumentationKey123" { operationId := some "opId" } {}) rfl).2.1 rfl

end AppInsights

namespace AxiosInterceptors

/-- In the range where a number is written in decimal notation, `parseInt` yields its
integer part. -/
theorem parseInt_of_decimal (x : ℚ) (h0 : 0 ≤ x) (hlo : x = 0 ∨ 1 / 1000000 ≤ x)
    (hhi : x < 10 ^ 21) : parseInt x = ⌊x⌋ := by
  have hfl : Rat.floor x = ⌊x⌋ := rfl
  have hnn : 0 ≤ ⌊x⌋ := Int.floor_nonneg.mpr h0
  have hneg : ¬ x < 0 := not_lt.mpr h0
  unfold parseInt parseIntOfNonneg
  rw [if_neg hneg]
  by_cases hx : x = 0
  · subst hx
    simp
  · have hlo' : ¬ x < 1 / 1000000 := by
      rcases hlo with h | h
      · exact absurd h hx
      · exact not_lt.mpr h
    rw [if_neg hx, if_neg hlo', if_pos hhi, hfl]
    exact Int.toNat_of_nonneg hnn

/-- The result of `parseInt` on a number that is not negative is not negative. -/
theorem parseInt_nonneg (x : ℚ) (h0 : 0 ≤ x) : 0 ≤ parseInt x := by
  unfold parseInt
  rw [if_neg (not_lt.mpr h0)]
  exact Int.ofNat_nonneg _

/-- C13, counterexample: a config stamped at time 0.  A response handled at time `10^21`
gets the duration 1, not `10^21`, and an error handled at time `5 * 10^-7` gets the duration
5, not 0: outside the range of decimal notation `parseInt` reads the leading digit of the
exponent notation. -/
theorem duration_not_truncation :
    responseInterceptor (10 ^ 21) { status := some 200, config := some (requestInterceptor 0 {}) }
      = .ok { status := some 200, config := some (requestInterceptor 0 {}),
              duration := some 1 } ∧
    ⌊((10 : ℚ) ^ 21 - 0)⌋ ≠ 1 ∧
    responseInterceptorOnError (5 / 10000000)
        (.http { status := none, config := some (requestInterceptor 0 {}) })
      = .ok { status := none, config := some (requestInterceptor 0 {}),
              duration := some 5 } ∧
    ⌊((5 : ℚ) / 10000000 - 0)⌋ ≠ 5 := by
  have h1 : parseInt (10 ^ 21) = 1 := by
    norm_num [parseInt, parseIntOfNonneg, Rat.floor]
    decide
  have hk : (Nat.toDigits 10 (Int.toNat 2000000 - 1)).length = 7 := by decide
  have h2 : parseInt (5 / 10000000) = 5 := by
    norm_num [parseInt, parseIntOfNonneg, Rat.ceil]
    rw [hk]
    norm_num [Rat.floor]
  refine ⟨?_, ?_, ?_, ?_⟩
  · simp [responseInterceptor, requestInterceptor, h1]
  · have : ⌊((10 : ℚ) ^ 21 - 0)⌋ = 1000000000000000000000 := by
      rw [Int.floor_eq_iff]
      norm_num
    rw [this]
    decide
  · simp [responseInterceptorOnError, responseInterceptor, requestInterceptor, h2]
  · have : ⌊((5 : ℚ) / 10000000 - 0)⌋ = 0 := by
      rw [Int.floor_eq_iff]
      norm_num
    rw [this]
    decide

/-- C13, as amended: when the request interceptor stamped the config at time `t0` and a
response, or an error, carrying that config is handled at time `t1 ≥ t0`, the fulfilled
handler and the rejected handler both return the object with a duration that is not
negative; when `t1 - t0` is `0` or lies in `[10^-6, 10^21)` milliseconds, that duration is
`t1 - t0` truncated to an integer.  A stamp at 1000 and completions at 2500 and 3000 give
1500 and 2000. -/
theorem duration_attached (t0 t1 : ℚ) (config : RequestConfig) (response : HttpObj)
    (hconfig : response.config = some (requestInterceptor t0 config)) (h01 : t0 ≤ t1) :
    ((requestInterceptor t0 config).meta.map (fun m => m.ts)) = some (some t0) ∧
    responseInterceptor t1 response
      = .ok { response with duration := some (parseInt (t1 - t0)) } ∧
    responseInterceptorOnError t1 (.http response)
      = .ok { response with duration := some (parseInt (t1 - t0)) } ∧
    0 ≤ parseInt (t1 - t0) ∧
    ((t1 - t0 = 0 ∨ 1 / 1000000 ≤ t1 - t0) → t1 - t0 < 10 ^ 21 →
      parseInt (t1 - t0) = ⌊t1 - t0⌋) ∧
    (t0 = 1000 → t1 = 2500 →
      responseInterceptor t1 response = .ok { response with duration := some 1500 }) ∧
    (t0 = 1000 → t1 = 3000 →
      responseInterceptorOnError t1 (.http response)
        = .ok { response with duration := some 2000 }) := by
  have hd : 0 ≤ t1 - t0 := sub_nonneg.mpr h01
  have h1 : responseInterceptor t1 response
      = .ok { response with duration := some (parseInt (t1 - t0)) } := by
    simp [responseInterceptor, hconfig, requestInterceptor]
  have h2 : responseInterceptorOnError t1 (.http response)
      = .ok { response with duration := some (parseInt (t1 - t0)) } := by
    simp only [responseInterceptorOnError]
    exact h1
  refine ⟨by simp [requestInterceptor], h1, h2, parseInt_nonneg _ hd,
    fun hlo hhi => parseInt_of_decimal _ hd hlo hhi, ?_, ?_⟩
  · intro h0 h1'
    subst h0 h1'
    rw [h1]
    have : parseInt (2500 - 1000) = 1500 := by
      norm_num [parseInt, parseIntOfNonneg, Rat.floor]
    rw [this]
  · intro h0 h1'
    subst h0 h1'
    rw [h2]
    have : parseInt (3000 - 1000) = 2000 := by
      norm_num [parseInt, parseIntOfNonneg, Rat.floor]
    rw [this]

/-- Instance of the amended C13: the values of the interceptor tests, and a fractional
reading. -/
theorem duration_attached_witness :
    responseInterceptor 2500 { status := some 200, config := some (requestInterceptor 1000 {}) }
      = .ok { status := some 200, config := some (requestInterceptor 1000 {}),
              duration := some 1500 } ∧
    responseInterceptorOnError 3000
        (.http { status := none, config := some (requestInterceptor 1000 {}) })
      = .ok { status := none, config := some (requestInterceptor 1000 {}),
              duration := some 2000 } ∧
    parseInt (25007 / 10 - 10002 / 10) = ⌊((25007 : ℚ) / 10 - 10002 / 10)⌋ :=
  ⟨(duration_attached 1000 2500 {}
      { status := some 200, config := some (requestInterceptor 1000 {}) } rfl
      (by norm_num)).2.2.2.2.2.1 rfl rfl,
   (duration_attached 1000 3000 {}
      { status := none, config := some (requestInterceptor 1000 {}) } rfl
      (by norm_num)).2.2.2.2.2.2 rfl rfl,
   (duration_attached (10002 / 10) (25007 / 10) {}
      { status := some 200, config := some (requestInterceptor (10002 / 10) {}) } rfl
      (by norm_num)).2.2.2.2.1 (Or.inr (by norm_num)) (by norm_num)⟩

end AxiosInterceptors

namespace Landing

/-- Whatever `fn` does, a rejection of `retry` carries the string `'failed'`. -/
theorem retry_error_eq {α : Type} (fn : Int → Eff α) (delayFn : Int → Int) :
    ∀ (n : Nat) (R : Int) (w : World) (e : Thrown), R.toNat = n →
      (retry fn R delayFn w).1 = .error e → e = .str "failed" := by
  intro n
  induction n with
  | zero =>
    intro R w e hn h
    rcases hfn : fn R w with ⟨r, w1⟩
    cases r with
    | ok v => rw [retry_of_ok _ _ _ _ _ _ hfn] at h; cases h
    | error e' =>
      rw [retry_of_error_last _ _ _ _ _ _ hfn (by omega)] at h
      simp only [Except.error.injEq] at h
      exact h.symm
  | succ n ih =>
    intro R w e hn h
    rcases hfn : fn R w with ⟨r, w1⟩
    cases r with
    | ok v => rw [retry_of_ok _ _ _ _ _ _ hfn] at h; cases h
    | error e' =>
      rw [retry_of_error_pos _ _ _ _ _ _ hfn (by omega)] at h
      exact ih (R - 1) _ e (by omega) h

/-- C14, counterexample: two operations that fail with different errors make `retry`
reject with the same value, so no function recovers the last failure cause from the
rejection value. -/
theorem retry_rejection_hides_cause :
    ¬ ∃ recover : Thrown → Thrown, ∀ (cause rejection : Thrown),
      (retry (scripted (fun _ _ => (.error cause : Except Thrown Unit))) 1 (fun _ => 0) {}).1
          = .error rejection →
        recover rejection = cause := by
  rintro ⟨recover, h⟩
  have hA := (retry_scripted_failure (fun _ _ => (.error (.str "A") : Except Thrown Unit))
    (fun _ => 0) 1 {} (fun _ _ => ⟨_, rfl⟩)).1
  have hB := (retry_scripted_failure (fun _ _ => (.error (.str "B") : Except Thrown Unit))
    (fun _ => 0) 1 {} (fun _ _ => ⟨_, rfl⟩)).1
  have h1 := h (.str "A") (.str "failed") hA
  have h2 := h (.str "B") (.str "failed") hB
  rw [h1] at h2
  exact absurd h2 (by decide)

/-- C14, as amended: when `retry` rejects, the rejection value is the constant string
`'failed'`; in particular, when every call of `fn` rejects, `retry` rejects with `'failed'`
whatever the errors of `fn` were. -/
theorem retry_rejects_with_failed {α : Type} (fn : Int → Eff α) (R : Int)
    (delayFn : Int → Int) (w : World) :
    (∀ e, (retry fn R delayFn w).1 = .error e → e = .str "failed") ∧
    ((∀ a w, ∃ e, (fn a w).1 = .error e) →
      (retry fn R delayFn w).1 = .error (.str "failed")) := by
  refine ⟨fun e h => retry_error_eq fn delayFn R.toNat R w e rfl h, ?_⟩
  intro hfail
  have key : ∀ (n : Nat) (R : Int) (w : World), R.toNat = n →
      ∃ e, (retry fn R delayFn w).1 = .error e := by
    intro n
    induction n with
    | zero =>
      intro R w hn
      obtain ⟨e, he⟩ := hfail R w
      have hfn : fn R w = (.error e, (fn R w).2) := Prod.ext he rfl
      rw [retry_of_error_last _ _ _ _ _ _ hfn (by omega)]
      exact ⟨_, rfl⟩
    | succ n ih =>
      intro R w hn
      obtain ⟨e, he⟩ := hfail R w
      have hfn : fn R w = (.error e, (fn R w).2) := Prod.ext he rfl
      rw [retry_of_error_pos _ _ _ _ _ _ hfn (by omega)]
      exact ih (R - 1) _ (by omega)
  obtain ⟨e, he⟩ := key R.toNat R w rfl
  rw [he, retry_error_eq fn delayFn R.toNat R w e rfl he]

/-- Instance of the amended C14: four retries of an operation that fails with a network
error. -/
theorem retry_rejects_with_failed_witness :
    (retry (scripted (fun _ _ => (.error (.str "Network Error") : Except Thrown Unit))) 4
      (calcDelay 300000 4) {}).1 = .error (.str "failed") :=
  (retry_rejects_with_failed
    (scripted (fun _ _ => (.error (.str "Network Error") : Except Thrown Unit))) 4
    (calcDelay 300000 4) {}).2 (fun _ _ => ⟨.str "Network Error", rfl⟩)

end Landing

namespace Reconciliation

/-- C15, counterexample: with `maxRetries = 0` the loop is not entered: no request is
made, although the endpoint would answer with status 200, and the result is `undefined`. -/
theorem makeApiCallWithRetry_zero_no_attempt :
    makeApiCallWithRetry (mocked (fun _ _ => .ok { status := some 200, data := "success" }))
        "https://bc" "/api/certificates" [] 0 1000 {}
      = (.ok none, {}) ∧
    requests (makeApiCallWithRetry
        (mocked (fun _ _ => .ok { status := some 200, data := "success" }))
        "https://bc" "/api/certificates" [] 0 1000 {}).2.trace = [] := by
  have h : makeApiCallWithRetry
      (mocked (fun _ _ => .ok { status := some 200, data := "success" }))
      "https://bc" "/api/certificates" [] 0 1000 {} = (.ok none, {}) :=
    loop_of_done _ _ _ _ _ _ _ _ (by decide)
  rw [h]
  exact ⟨rfl, rfl⟩

/-- C15, as amended: `maxRetries` counts attempts.  With `maxRetries = 1` there is exactly
one PUT and no delay: the response is returned when it has status 200, and otherwise the
function throws.  With `maxRetries = 0` there is no PUT and no delay, and the function
returns `undefined`. -/
theorem makeApiCallWithRetry_one_or_zero (script : Nat → Request → Except Thrown HttpObj)
    (url apiName : String) (data : List Doc) (d : Int) (w : World) :
    (∀ response, script (requests w.trace).length
        { method := "PUT", url := url ++ apiName, data := some data } = .ok response →
      response.status = some 200 →
      (makeApiCallWithRetry (mocked script) url apiName data 1 d w).1 = .ok (some response) ∧
      requests (makeApiCallWithRetry (mocked script) url apiName data 1 d w).2.trace
        = requests w.trace ++ [{ method := "PUT", url := url ++ apiName, data := some data }] ∧
      timeouts (makeApiCallWithRetry (mocked script) url apiName data 1 d w).2.trace
        = timeouts w.trace) ∧
    (attemptFailed (script (requests w.trace).length
        { method := "PUT", url := url ++ apiName, data := some data }) = true →
      (makeApiCallWithRetry (mocked script) url apiName data 1 d w).1
        = .error (.error ("Max retries exceeded" ++ (caught (script (requests w.trace).length
            { method := "PUT", url := url ++ apiName, data := some data })).toStr)) ∧
      requests (makeApiCallWithRetry (mocked script) url apiName data 1 d w).2.trace
        = requests w.trace ++ [{ method := "PUT", url := url ++ apiName, data := some data }] ∧
      timeouts (makeApiCallWithRetry (mocked script) url apiName data 1 d w).2.trace
        = timeouts w.trace) ∧
    makeApiCallWithRetry (mocked script) url apiName data 0 d w = (.ok none, w) := by
  refine ⟨?_, ?_, loop_of_done _ _ _ _ _ _ _ _ (by decide)⟩
  · intro response hs h200
    obtain ⟨w', h1, h2, h3⟩ := loop_of_success script url apiName data 1 d 0 w response
      (by decide) hs h200
    have h' : makeApiCallWithRetry (mocked script) url apiName data 1 d w
        = (.ok (some response), w') := h1
    rw [h']
    exact ⟨rfl, h2, h3⟩
  · intro hf
    obtain ⟨w', h1, h2, h3⟩ := loop_of_last_failure script url apiName data 1 d 0 w
      (by decide) (by decide) hf
    have h' : makeApiCallWithRetry (mocked script) url apiName data 1 d w = (_, w') := h1
    rw [h']
    exact ⟨rfl, h2, h3⟩

/-- Instance of the amended C15: one attempt allowed, the endpoint answers with status 500;
one request, no delay, and the error `Max retries exceeded`. -/
theorem makeApiCallWithRetry_one_or_zero_witness :
    (makeApiCallWithRetry
        (mocked (fun _ _ => .ok { status := some 500, data := "Internal Server Error" }))
        "https://bc" "/api/certificates" [] 1 1000 {}).1
      = .error (.error "Max retries exceededError: [object Object]") ∧
    requests (makeApiCallWithRetry
        (mocked (fun _ _ => .ok { status := some 500, data := "Internal Server Error" }))
        "https://bc" "/api/certificates" [] 1 1000 {}).2.trace
      = [{ method := "PUT", url := "https://bc/api/certificates", data := some [] }] ∧
    timeouts (makeApiCallWithRetry
        (mocked (fun _ _ => .ok { status := some 500, data := "Internal Server Error" }))
        "https://bc" "/api/certificates" [] 1 1000 {}).2.trace = [] := by
  have h := (makeApiCallWithRetry_one_or_zero
    (fun _ _ => .ok { status := some 500, data := "Internal Server Error" })
    "https://bc" "/api/certificates" [] 1000 {}).2.1 rfl
  refine ⟨?_, ?_, ?_⟩
  · rw [h.1]; decide
  · rw [h.2.1]; decide
  · rw [h.2.2]; rfl

end Reconciliation

/-- Tracking a request hands no event to the sink and makes no HTTP request. -/
theorem trackedRequest_frame (ins : AppInsightsState) (name url : String) (o : Outcome) :
    trackedEventNames (trackedRequest ins name url o) = [] ∧
    requests (trackedRequest ins name url o) = [] ∧
    timeouts (trackedRequest ins name url o) = [] := by
  unfold trackedRequest
  split_ifs <;> simp [trackedEventNames, requests, timeouts]

namespace AppInsights

/-- With a sink that does not throw, `trackRequest` returns normally and appends
`trackedRequest` to the trace. -/
theorem trackRequest_trace (env : Env) (hsink : ∀ d, env.sinkRequestThrows d = false)
    (name url : String) (o : Outcome) (w : World) :
    trackRequest env name url o w
      = (.ok (), { w with trace := w.trace ++ trackedRequest w.insights name url o }) := by
  cases w
  simp only [trackRequest, trackedRequest, logFn, World.emit, hsink, Bool.false_eq_true,
    if_false]
  split_ifs <;> simp

end AppInsights

namespace Landing

/-- The exported function is the preamble, the retry sequence and the terminal handlers. -/
theorem func_eq (env : Env) (axios : HttpClient) (config : Config) (context : Context)
    (isPastDue : Bool) (overrideConfig : Override) (w : World) :
    func env axios config context isPastDue overrideConfig w
      = terminal env (retry
          (httpReq env axios (merge config overrideConfig) (merge config overrideConfig).retries)
          (merge config overrideConfig).retries
          (calcDelay (merge config overrideConfig).retryDelay
            (merge config overrideConfig).retries)
          (preamble env (merge config overrideConfig) context isPastDue w)) := rfl

/-- An attempt of `httpReq` whose HTTP call is answered. -/
theorem httpReq_of_ok (env : Env) (hsink : ∀ d, env.sinkRequestThrows d = false)
    (script : Nat → Request → Except Thrown HttpObj) (config : Config) (T r : Int) (w : World)
    (res : HttpObj)
    (hs : script (requests w.trace).length { method := "POST", url := config.url } = .ok res) :
    httpReq env (mocked script) config T r w
      = (.ok (), { w with trace := w.trace ++ successfulAttempt w.insights config (T - r + 1) res }) := by
  have hlen : (requests (w.trace ++ [Event.log
      ("[SCHEDULED-JOBS][LANDING-AND-REPORTING][MAKING-HTTP-CALL][ATTEMPT-"
        ++ toString (T - r + 1) ++ "]")])).length = (requests w.trace).length := by
    simp [requests_append, requests]
  simp only [httpReq, mocked, World.emit, hlen, hs, AppInsights.trackRequest_trace env hsink,
    successfulAttempt, makingHttpCallTag, List.append_assoc, List.singleton_append,
    List.cons_append, List.nil_append]

/-- An attempt of `httpReq` whose HTTP call is rejected. -/
theorem httpReq_of_error (env : Env) (hsink : ∀ d, env.sinkRequestThrows d = false)
    (script : Nat → Request → Except Thrown HttpObj) (config : Config) (T r : Int) (w : World)
    (e : Thrown)
    (hs : script (requests w.trace).length { method := "POST", url := config.url } = .error e) :
    httpReq env (mocked script) config T r w
      = (.error e, { w with trace := w.trace ++ failedAttempt w.insights config (T - r + 1) e }) := by
  have hlen : (requests (w.trace ++ [Event.log
      ("[SCHEDULED-JOBS][LANDING-AND-REPORTING][MAKING-HTTP-CALL][ATTEMPT-"
        ++ toString (T - r + 1) ++ "]")])).length = (requests w.trace).length := by
    simp [requests_append, requests]
  simp only [httpReq, mocked, World.emit, hlen, hs, AppInsights.trackRequest_trace env hsink,
    failedAttempt, makingHttpCallTag, errorAttemptTag, List.append_assoc,
    List.singleton_append, List.cons_append, List.nil_append]

/-- Tracking a request makes no HTTP request. -/
theorem requests_trackedRequest (ins : AppInsightsState) (name url : String) (o : Outcome) :
    requests (trackedRequest ins name url o) = [] :=
  (trackedRequest_frame ins name url o).2.1

/-- The events of a failed attempt contain exactly one HTTP request. -/
theorem requests_failedAttempt (ins : AppInsightsState) (config : Config) (attempt : Int)
    (e : Thrown) :
    requests (failedAttempt ins config attempt e) = [{ method := "POST", url := config.url }] := by
  simp [failedAttempt, requests_append, requests, (trackedRequest_frame _ _ _ _).2.1]

/-- The trace of the retry sequence over `httpReq`, entered with `n` retries remaining out
of `T`, when the next `K` HTTP calls are rejected and the one after them is answered. -/
theorem retry_httpReq_success (env : Env) (hsink : ∀ d, env.sinkRequestThrows d = false)
    (script : Nat → Request → Except Thrown HttpObj) (config : Config) (T d : Int)
    (res : HttpObj) :
    ∀ (K n : Nat) (w : World) (errs : Nat → Thrown), K ≤ n →
      (∀ j, j < K → script ((requests w.trace).length + j)
        { method := "POST", url := config.url } = .error (errs j)) →
      script ((requests w.trace).length + K) { method := "POST", url := config.url } = .ok res →
      retry (httpReq env (mocked script) config T) (n : Int) (calcDelay d T) w
        = (.ok (),
            { w with
              trace := w.trace
                ++ (List.range K).flatMap (fun (j : Nat) =>
                    failedAttempt w.insights config (T - n + j + 1) (errs j)
                      ++ [.setTimeout ((T - n + j) * d)])
                ++ successfulAttempt w.insights config (T - n + K + 1) res }) := by
  intro K
  induction K with
  | zero =>
    intro n w errs _ _ hok
    rw [retry_of_ok _ _ _ _ _ _
      (httpReq_of_ok env hsink script config T n w res (by simpa using hok))]
    simp
  | succ K ih =>
    intro n w errs hK hfail hok
    obtain ⟨m, rfl⟩ : ∃ m, n = m + 1 := ⟨n - 1, by omega⟩
    have h0 := httpReq_of_error env hsink script config T ((m + 1 : Nat) : Int) w (errs 0)
      (by simpa using hfail 0 (Nat.succ_pos K))
    rw [retry_of_error_pos _ _ _ _ _ _ h0 (by push_cast; omega), wait_eq]
    have hR : ((m + 1 : Nat) : Int) - 1 = (m : Int) := by push_cast; ring
    rw [hR]
    have hlen : (requests (World.emit
        { w with
          trace := w.trace ++ failedAttempt w.insights config (T - ((m + 1 : Nat) : Int) + 1) (errs 0) }
        (.setTimeout (calcDelay d T ((m + 1 : Nat) : Int)))).trace).length
        = (requests w.trace).length + 1 := by
      simp only [World.emit, requests_append, requests_failedAttempt, requests,
        requests_trackedRequest]
      simp [requests_trackedRequest]
    rw [ih m _ (fun j => errs (j + 1)) (by omega)
      (by
        intro j hj
        rw [hlen]
        have e1 : (requests w.trace).length + 1 + j = (requests w.trace).length + (j + 1) := by
          omega
        rw [e1]
        exact hfail (j + 1) (by omega))
      (by
        rw [hlen]
        have e1 : (requests w.trace).length + 1 + K = (requests w.trace).length + (K + 1) := by
          omega
        rw [e1]
        exact hok)]
    have hfun : (fun (j : Nat) =>
          failedAttempt w.insights config (T - ((m + 1 : Nat) : Int) + ((j + 1 : Nat) : Int) + 1)
            (errs (j + 1))
          ++ [Event.setTimeout ((T - ((m + 1 : Nat) : Int) + ((j + 1 : Nat) : Int)) * d)])
        = (fun (j : Nat) =>
          failedAttempt w.insights config (T - (m : Int) + (j : Int) + 1) (errs (j + 1))
          ++ [Event.setTimeout ((T - (m : Int) + (j : Int)) * d)]) := by
      funext j
      have a1 : T - ((m + 1 : Nat) : Int) + ((j + 1 : Nat) : Int) = T - (m : Int) + (j : Int) := by
        push_cast; ring
      rw [a1]
    have a2 : T - ((m + 1 : Nat) : Int) + ((K + 1 : Nat) : Int) + 1 = T - (m : Int) + (K : Int) + 1 := by
      push_cast; ring
    have a3 : calcDelay d T ((m + 1 : Nat) : Int) = (T - ((m + 1 : Nat) : Int) + ((0 : Nat) : Int)) * d := by
      simp only [calcDelay]; push_cast; ring
    have a4 : T - ((m + 1 : Nat) : Int) + 1 = T - ((m + 1 : Nat) : Int) + ((0 : Nat) : Int) + 1 := by
      push_cast; ring
    rw [List.range_succ_eq_map (K), List.flatMap_cons, List.flatMap_map]
    simp only [Function.comp_def, Nat.succ_eq_add_one]
    rw [hfun, a2, a3, a4]
    simp only [World.emit, List.append_assoc]

/-- The trace of the retry sequence over `httpReq`, entered with `n` retries remaining out
of `T`, when every HTTP call is rejected. -/
theorem retry_httpReq_failure (env : Env) (hsink : ∀ d, env.sinkRequestThrows d = false)
    (script : Nat → Request → Except Thrown HttpObj) (config : Config) (T d : Int) :
    ∀ (n : Nat) (w : World) (errs : Nat → Thrown),
      (∀ j, j ≤ n → script ((requests w.trace).length + j)
        { method := "POST", url := config.url } = .error (errs j)) →
      retry (httpReq env (mocked script) config T) (n : Int) (calcDelay d T) w
        = (.error (.str "failed"),
            { w with
              trace := w.trace
                ++ (List.range n).flatMap (fun (j : Nat) =>
                    failedAttempt w.insights config (T - n + j + 1) (errs j)
                      ++ [.setTimeout ((T - n + j) * d)])
                ++ failedAttempt w.insights config (T + 1) (errs n) }) := by
  intro n
  induction n with
  | zero =>
    intro w errs hfail
    rw [retry_of_error_last _ _ _ _ _ _
      (httpReq_of_error env hsink script config T ((0 : Nat) : Int) w (errs 0)
        (by simpa using hfail 0 (Nat.le_refl 0))) (by simp)]
    simp
  | succ m ih =>
    intro w errs hfail
    have h0 := httpReq_of_error env hsink script config T ((m + 1 : Nat) : Int) w (errs 0)
      (by simpa using hfail 0 (Nat.zero_le _))
    rw [retry_of_error_pos _ _ _ _ _ _ h0 (by push_cast; omega), wait_eq]
    have hR : ((m + 1 : Nat) : Int) - 1 = (m : Int) := by push_cast; ring
    rw [hR]
    have hlen : (requests (World.emit
        { w with
          trace := w.trace ++ failedAttempt w.insights config (T - ((m + 1 : Nat) : Int) + 1) (errs 0) }
        (.setTimeout (calcDelay d T ((m + 1 : Nat) : Int)))).trace).length
        = (requests w.trace).length + 1 := by
      simp only [World.emit, requests_append, requests_failedAttempt, requests,
        requests_trackedRequest]
      simp [requests_trackedRequest]
    rw [ih _ (fun j => errs (j + 1))
      (by
        intro j hj
        rw [hlen]
        have e1 : (requests w.trace).length + 1 + j = (requests w.trace).length + (j + 1) := by
          omega
        rw [e1]
        exact hfail (j + 1) (by omega))]
    have hfun : (fun (j : Nat) =>
          failedAttempt w.insights config (T - ((m + 1 : Nat) : Int) + ((j + 1 : Nat) : Int) + 1)
            (errs (j + 1))
          ++ [Event.setTimeout ((T - ((m + 1 : Nat) : Int) + ((j + 1 : Nat) : Int)) * d)])
        = (fun (j : Nat) =>
          failedAttempt w.insights config (T - (m : Int) + (j : Int) + 1) (errs (j + 1))
          ++ [Event.setTimeout ((T - (m : Int) + (j : Int)) * d)]) := by
      funext j
      have a1 : T - ((m + 1 : Nat) : Int) + ((j + 1 : Nat) : Int) = T - (m : Int) + (j : Int) := by
        push_cast; ring
      rw [a1]
    have a3 : calcDelay d T ((m + 1 : Nat) : Int) = (T - ((m + 1 : Nat) : Int) + ((0 : Nat) : Int)) * d := by
      simp only [calcDelay]; push_cast; ring
    have a4 : T - ((m + 1 : Nat) : Int) + 1 = T - ((m + 1 : Nat) : Int) + ((0 : Nat) : Int) + 1 := by
      push_cast; ring
    rw [List.range_succ_eq_map m, List.flatMap_cons, List.flatMap_map]
    simp only [Function.comp_def, Nat.succ_eq_add_one]
    rw [hfun, a3, a4]
    simp only [World.emit, List.append_assoc]

/-- C17: with `R` retries, the attempts are logged as `MAKING-HTTP-CALL` `ATTEMPT-1`,
`ATTEMPT-2`, ... in order, and every failed attempt `i` is followed by the `ERROR`
`ATTEMPT-i` line and by the tracking of the failed request, both before the delay of that
attempt and before the next attempt.  The trace of the retry sequence is, for `K ≤ R`
rejected calls followed by an answered one, the `K` failed attempts, each followed by its
delay `(i - 1) * d`, and then the successful attempt `K + 1`; when every call is rejected
it is the `R` failed attempts with their delays and then the failed attempt `R + 1`.
(The telemetry sink does not throw.) -/
theorem retry_httpReq_trace (env : Env) (script : Nat → Request → Except Thrown HttpObj)
    (config : Config) (d R : Int) (w : World) (hR : 0 ≤ R)
    (hsink : ∀ data, env.sinkRequestThrows data = false) :
    (∀ (K : Nat) (res : HttpObj) (errs : Nat → Thrown), (K : Int) ≤ R →
      (∀ j, j < K → script ((requests w.trace).length + j)
        { method := "POST", url := config.url } = .error (errs j)) →
      script ((requests w.trace).length + K) { method := "POST", url := config.url } = .ok res →
      (retry (httpReq env (mocked script) config R) R (calcDelay d R) w).2.trace
        = w.trace
          ++ (List.range K).flatMap (fun (j : Nat) =>
              failedAttempt w.insights config ((j : Int) + 1) (errs j)
                ++ [.setTimeout ((j : Int) * d)])
          ++ successfulAttempt w.insights config ((K : Int) + 1) res) ∧
    (∀ (errs : Nat → Thrown),
      (∀ j, j ≤ R.toNat → script ((requests w.trace).length + j)
        { method := "POST", url := config.url } = .error (errs j)) →
      (retry (httpReq env (mocked script) config R) R (calcDelay d R) w).2.trace
        = w.trace
          ++ (List.range R.toNat).flatMap (fun (j : Nat) =>
              failedAttempt w.insights config ((j : Int) + 1) (errs j)
                ++ [.setTimeout ((j : Int) * d)])
          ++ failedAttempt w.insights config (R + 1) (errs R.toNat)) := by
  have hn : ((R.toNat : Nat) : Int) = R := Int.toNat_of_nonneg hR
  constructor
  · intro K res errs hK hfail hok
    have h := retry_httpReq_success env hsink script config R d res K R.toNat w errs
      (by omega) hfail hok
    rw [hn] at h
    rw [h]
    simp
  · intro errs hfail
    have h := retry_httpReq_failure env hsink script config R d R.toNat w errs hfail
    rw [hn] at h
    rw [h]
    simp

/-- Instance of C17: four retries, base delay 300000, telemetry not activated; the first
two calls are rejected and the third is answered. -/
theorem retry_httpReq_trace_witness :
    (retry (httpReq { adapter := fun _ _ => .ok { status := some 200 } }
        (mocked (fun i _ => if i < 2 then .error (.str "Network Error")
          else .ok { status := some 200, data := "success" })) {} 4) 4
        (calcDelay 300000 4) {}).2.trace
      = [ .log "[SCHEDULED-JOBS][LANDING-AND-REPORTING][MAKING-HTTP-CALL][ATTEMPT-1]",
          .request { method := "POST", url := "http://localhost:9000/v1/jobs/landings" },
          .log "[SCHEDULED-JOBS][LANDING-AND-REPORTING][ERROR][ATTEMPT-1]",
          .setTimeout 0,
          .log "[SCHEDULED-JOBS][LANDING-AND-REPORTING][MAKING-HTTP-CALL][ATTEMPT-2]",
          .request { method := "POST", url := "http://localhost:9000/v1/jobs/landings" },
          .log "[SCHEDULED-JOBS][LANDING-AND-REPORTING][ERROR][ATTEMPT-2]",
          .setTimeout 300000,
          .log "[SCHEDULED-JOBS][LANDING-AND-REPORTING][MAKING-HTTP-CALL][ATTEMPT-3]",
          .request { method := "POST", url := "http://localhost:9000/v1/jobs/landings" } ] := by
  have h := (retry_httpReq_trace { adapter := fun _ _ => .ok { status := some 200 } }
    (fun i _ => if i < 2 then .error (.str "Network Error")
      else .ok { status := some 200, data := "success" }) {} 300000 4 {} (by decide)
    (fun _ => rfl)).1 2 { status := some 200, data := "success" }
    (fun _ => .str "Network Error") (by decide)
    (by intro j hj; simp [requests, hj]) (by simp [requests])
  rw [h]
  decide

/-- C16, the code at a failing input: telemetry is activated with a key, `func` runs on the
real axios pipeline (it installs the interceptors itself), and the adapter rejects every
request with a network error.  The rejected handler turns each failure into a resolved call,
so the job makes a single request, tracks `SUCCEEDED` and logs `SUCCESS`, where every
attempt failed and the terminal event should be `FAILED`. -/
theorem failed_calls_tracked_as_succeeded :
    (func { adapter := fun _ _ => .error { status := none, text := "Error: Network Error" } }
        (Axios.request
          { adapter := fun _ _ => .error { status := none, text := "Error: Network Error" } })
        {} { operationId := some "opId" } false
        { instrumentationKey := some (some "instrumentationKey123") } {}).1 = .ok () ∧
    requests (func
        { adapter := fun _ _ => .error { status := none, text := "Error: Network Error" } }
        (Axios.request
          { adapter := fun _ _ => .error { status := none, text := "Error: Network Error" } })
        {} { operationId := some "opId" } false
        { instrumentationKey := some (some "instrumentationKey123") } {}).2.trace
      = [{ method := "POST", url := "http://localhost:9000/v1/jobs/landings" }] ∧
    trackedEventNames (func
        { adapter := fun _ _ => .error { status := none, text := "Error: Network Error" } }
        (Axios.request
          { adapter := fun _ _ => .error { status := none, text := "Error: Network Error" } })
        {} { operationId := some "opId" } false
        { instrumentationKey := some (some "instrumentationKey123") } {}).2.trace
      = ["[SCHEDULED-JOBS][LANDING-AND-REPORTING][SUCCEEDED]"] ∧
    (func { adapter := fun _ _ => .error { status := none, text := "Error: Network Error" } }
        (Axios.request
          { adapter := fun _ _ => .error { status := none, text := "Error: Network Error" } })
        {} { operationId := some "opId" } false
        { instrumentationKey := some (some "instrumentationKey123") } {}).2.trace.getLast?
      = some (.log "[SCHEDULED-JOBS][LANDING-AND-REPORTING][SUCCESS]") := by
  have h : httpReq
      { adapter := fun _ _ => .error { status := none, text := "Error: Network Error" } }
      (Axios.request
        { adapter := fun _ _ => .error { status := none, text := "Error: Network Error" } })
      (merge {} { instrumentationKey := some (some "instrumentationKey123") })
      (merge {} { instrumentationKey := some (some "instrumentationKey123") }).retries
      (merge {} { instrumentationKey := some (some "instrumentationKey123") }).retries
      (preamble
        { adapter := fun _ _ => .error { status := none, text := "Error: Network Error" } }
        (merge {} { instrumentationKey := some (some "instrumentationKey123") })
        { operationId := some "opId" } false {}) = (.ok (), _) := Prod.ext (by decide) rfl
  rw [func_eq, retry_of_ok _ _ _ _ _ _ h]
  refine ⟨by decide, by decide, by decide, by decide⟩

end Landing

end FesJobs
